import Mathlib

/-!
# Terminal Snake game (`project1.c`): shallow embedding and verified properties

The game logic of `project1.c` is embedded as pure Lean functions over an
explicit `GameState`.

* C `int` values are mathematical integers (`Int`).  The one increment that the
  source performs without any guard, `g->score += 1`, is wrapped to the 32 bits
  of an `int` (`int_wrap`); the coordinates of a step that goes on are on the
  board, and `snake_len` is only incremented below 800.
* The array `Point snake[MAX_SNAKE_LENGTH]` is a function from the index to the
  cell content; the cells of the C array are the indices `0 .. 799`.
* `rand()` is an explicit stream of non-negative integers together with the
  number of calls made so far.
* The POSIX terminal is a queue of pending input bytes.
* `render_frame` yields the bytes it hands to `fwrite`; the success of `malloc`
  is a parameter, and the bound that `snprintf` puts on the info lines is kept.
-/

namespace Snake

/-! ## Constants and data model (source lines 33-54) -/

def BOARD_WIDTH : Int := 40
def BOARD_HEIGHT : Int := 20
def MAX_SNAKE_LENGTH : Int := BOARD_WIDTH * BOARD_HEIGHT

inductive Direction where
  | DIR_UP
  | DIR_RIGHT
  | DIR_DOWN
  | DIR_LEFT
  deriving DecidableEq, Repr

open Direction

structure Point where
  x : Int
  y : Int
  deriving DecidableEq, Repr

structure GameState where
  snake : Int → Point
  snake_len : Int
  dir : Direction
  food : Point
  score : Int
  game_over : Int

/-- Assignment `a[i] = v` to one array cell. -/
def set_at (a : Int → Point) (i : Int) (v : Point) : Int → Point :=
  fun j => if j = i then v else a j

/-- The value an `int` variable holds after an arithmetic result `n`: the
two's-complement wrap-around to 32 bits. -/
def int_wrap (n : Int) : Int := (n + 2147483648) % 4294967296 - 2147483648

/-! ## Random source (source lines 110-113) -/

/-- State of the C library generator: the results of the successive `rand()`
calls and the number of calls made so far. -/
structure Rng where
  seq : Nat → Nat
  pos : Nat

/-- One call of `rand()`. -/
def rand (r : Rng) : Int × Rng :=
  ((r.seq r.pos : Int), { r with pos := r.pos + 1 })

/-- Source `rand_int(min, max)`: `rand() % (max - min + 1) + min` after ordering
the two bounds; `%` is the truncating remainder of C. -/
def rand_int (r : Rng) (min max : Int) : Int × Rng :=
  let lo := if min > max then max else min
  let hi := if min > max then min else max
  let v := rand r
  (Int.tmod v.1 (hi - lo + 1) + lo, v.2)

/-! ## Game logic (source lines 117-188) -/

/-- The loop `for (i = start; i < snake_len; ++i) if (snake[i] == (x,y)) ...`:
scans `n` cells starting at index `i` and reports whether one of them is
`(x, y)`. -/
def snake_scan (snake : Int → Point) (x y : Int) : Nat → Int → Bool
  | 0, _ => false
  | n + 1, i =>
    if (snake i).x = x ∧ (snake i).y = y then true
    else snake_scan snake x y n (i + 1)

/-- Source `snake_contains(g, x, y, ignore_head)`; the result is the C truth
value `1` or `0`. -/
def snake_contains (g : GameState) (x y : Int) (ignore_head : Int) : Int :=
  let start : Int := if ignore_head ≠ 0 then 1 else 0
  if snake_scan g.snake x y (g.snake_len - start).toNat start then 1 else 0

/-- The `do ... while` loop of `place_food`.  The first argument is the number
of further attempts the cap still allows after the current one: the source
counter `attempts` is `10000 - left` before its increment, so the test
`attempts > 10000` after the increment succeeds exactly when `left = 0`. -/
def place_food_loop (g : GameState) : Nat → Rng → Point × Rng
  | 0, r =>
    let fx := rand_int r 1 BOARD_WIDTH
    let fy := rand_int fx.2 1 BOARD_HEIGHT
    ({ x := fx.1, y := fy.1 }, fy.2)
  | left + 1, r =>
    let fx := rand_int r 1 BOARD_WIDTH
    let fy := rand_int fx.2 1 BOARD_HEIGHT
    if snake_contains g fx.1 fy.1 0 ≠ 0 then place_food_loop g left fy.2
    else ({ x := fx.1, y := fy.1 }, fy.2)

/-- Source `place_food(g)`. -/
def place_food (g : GameState) (r : Rng) : GameState × Rng :=
  let res := place_food_loop g 10000 r
  ({ g with food := res.1 }, res.2)

/-- Source `update_direction(g, ch)`; the key codes are the ASCII codes of
`w W s S a A d D q Q`. -/
def update_direction (g : GameState) (ch : Int) : GameState :=
  if ch = 119 ∨ ch = 87 then (if g.dir ≠ DIR_DOWN then { g with dir := DIR_UP } else g)
  else if ch = 115 ∨ ch = 83 then (if g.dir ≠ DIR_UP then { g with dir := DIR_DOWN } else g)
  else if ch = 97 ∨ ch = 65 then (if g.dir ≠ DIR_RIGHT then { g with dir := DIR_LEFT } else g)
  else if ch = 100 ∨ ch = 68 then (if g.dir ≠ DIR_LEFT then { g with dir := DIR_RIGHT } else g)
  else if ch = 113 ∨ ch = 81 then { g with game_over := 1 }
  else g

/-- The candidate head of `game_step`: a copy of `snake[0]` moved by one cell in
the direction `dir` (source lines 166-170). -/
def new_head (g : GameState) : Point :=
  let h := g.snake 0
  if g.dir = DIR_UP then { h with y := h.y - 1 }
  else if g.dir = DIR_DOWN then { h with y := h.y + 1 }
  else if g.dir = DIR_LEFT then { h with x := h.x - 1 }
  else if g.dir = DIR_RIGHT then { h with x := h.x + 1 }
  else h

/-- The loop `for (i = snake_len - 1; i > 0; --i) snake[i] = snake[i - 1];`:
`n` iterations starting at index `i`. -/
def shift_body (snake : Int → Point) : Nat → Int → (Int → Point)
  | 0, _ => snake
  | n + 1, i => shift_body (set_at snake i (snake (i - 1))) n (i - 1)

/-- Source `game_step(g)`. -/
def game_step (g : GameState) (r : Rng) : GameState × Rng :=
  let nh := new_head g
  if nh.x < 1 ∨ nh.x > BOARD_WIDTH ∨ nh.y < 1 ∨ nh.y > BOARD_HEIGHT then
    ({ g with game_over := 1 }, r)
  else if snake_contains g nh.x nh.y 0 ≠ 0 then
    ({ g with game_over := 1 }, r)
  else
    let g1 := { g with snake := shift_body g.snake (g.snake_len - 1).toNat (g.snake_len - 1) }
    let g2 := { g1 with snake := set_at g1.snake 0 nh }
    if (g2.snake 0).x = g2.food.x ∧ (g2.snake 0).y = g2.food.y then
      let g3 :=
        if g2.snake_len < MAX_SNAKE_LENGTH then
          { g2 with
            snake := set_at g2.snake g2.snake_len (g2.snake (g2.snake_len - 1))
            snake_len := g2.snake_len + 1 }
        else g2
      let g4 := { g3 with score := int_wrap (g3.score + 1) }
      place_food g4 r
    else (g2, r)

/-- The loop body of `init_game` that draws the first food cell, repeated at
most `fuel` times: `none` when the loop is still running after `fuel` draws. -/
def init_food_loop (g : GameState) : Nat → Rng → Option (Point × Rng)
  | 0, _ => none
  | fuel + 1, r =>
    let fx := rand_int r 1 BOARD_WIDTH
    let fy := rand_int fx.2 1 BOARD_HEIGHT
    let on_snake := snake_scan g.snake fx.1 fy.1 g.snake_len.toNat 0
    if on_snake then init_food_loop g fuel fy.2
    else some ({ x := fx.1, y := fy.1 }, fy.2)

/-- The field assignments of `init_game` (source lines 118-126): `g` is the
storage the caller passes in; the array cells from index 3 on and the food keep
whatever they held. -/
def init_fields (g : GameState) : GameState :=
  let sx := BOARD_WIDTH / 4
  let sy := BOARD_HEIGHT / 2
  let s0 := set_at g.snake 0 { x := sx + 2, y := sy }
  let s1 := set_at s0 1 { x := sx + 1, y := sy }
  let s2 := set_at s1 2 { x := sx + 0, y := sy }
  { snake := s2, snake_len := 3, dir := DIR_RIGHT, food := g.food, score := 0, game_over := 0 }

/-- Source `init_game(g)`: the field assignments, then the loop that draws the
food; `none` when the loop is still running after `fuel` draws. -/
def init_game (fuel : Nat) (g : GameState) (r : Rng) : Option (GameState × Rng) :=
  match init_food_loop (init_fields g) fuel r with
  | none => none
  | some res => some ({ init_fields g with food := res.1 }, res.2)

/-! ## Input handling, POSIX branch (source lines 74-85, 205-217) -/

/-- Source `kbhit_posix()`: whether a byte is pending on standard input. -/
def kbhit_posix (q : List Nat) : Bool := !q.isEmpty

/-- Source `getch_posix()`: reads one byte; `-1` when nothing could be read. -/
def getch_posix (q : List Nat) : Int × List Nat :=
  match q with
  | [] => (-1, [])
  | c :: rest => ((c : Int), rest)

/-- Source `handle_input(g)`, POSIX branch, over the queue of pending bytes:
the return value, the state and the bytes left unread. -/
def handle_input (g : GameState) (q : List Nat) : Int × GameState × List Nat :=
  if !kbhit_posix q then (0, g, q)
  else
    let c := getch_posix q
    if c.1 = 27 then
      if !kbhit_posix c.2 then (1, g, c.2)
      else
        let c2 := getch_posix c.2
        if c2.1 ≠ 91 then (1, g, c2.2)
        else if !kbhit_posix c2.2 then (1, g, c2.2)
        else
          let c3 := getch_posix c2.2
          if c3.1 = 65 then (1, update_direction g 119, c3.2)
          else if c3.1 = 66 then (1, update_direction g 115, c3.2)
          else if c3.1 = 67 then (1, update_direction g 100, c3.2)
          else if c3.1 = 68 then (1, update_direction g 97, c3.2)
          else (1, g, c3.2)
    else (1, update_direction g c.1, c.2)

/-- One iteration of the loop of `main` as far as the game state goes:
`handle_input(&game); game_step(&game);` (rendering and the sleep do not touch
the state). -/
def main_tick (g : GameState) (q : List Nat) (r : Rng) : GameState × List Nat × Rng :=
  let inp := handle_input g q
  let st := game_step inp.2.1 r
  (st.1, inp.2.2, st.2)

/-! ## Rendering (source lines 38-43, 225-273) -/

def CHAR_BORDER_HORIZONTAL : Char := '-'
def CHAR_BORDER_VERTICAL : Char := '|'
def CHAR_SNAKE_HEAD : Char := 'O'
def CHAR_SNAKE_BODY : Char := 'o'
def CHAR_FOOD : Char := '*'
def CHAR_EMPTY : Char := ' '

/-- The escape character `\x1b`. -/
def CHAR_ESC : Char := Char.ofNat 27

/-- The newline character. -/
def CHAR_NL : Char := Char.ofNat 10

/-- The tab character. -/
def CHAR_TAB : Char := Char.ofNat 9

/-- The character of one board cell (source lines 246-252): food, else head
`snake[0]`, else the scan of the segments `1 .. snake_len - 1`, else empty. -/
def render_cell (g : GameState) (x y : Int) : Char :=
  if g.food.x = x ∧ g.food.y = y then CHAR_FOOD
  else if (g.snake 0).x = x ∧ (g.snake 0).y = y then CHAR_SNAKE_HEAD
  else if snake_scan g.snake x y (g.snake_len - 1).toNat 1 then CHAR_SNAKE_BODY
  else CHAR_EMPTY

/-- The loop `for (x = 1; x <= BOARD_WIDTH; ++x)` of one board line: `n` cells
starting at column `x`. -/
def render_cells (g : GameState) (y : Int) : Nat → Int → List Char
  | 0, _ => []
  | n + 1, x => render_cell g x y :: render_cells g y n (x + 1)

/-- The loop `for (y = 1; y <= BOARD_HEIGHT; ++y)`: `n` board lines starting at
row `y`, each between two vertical border characters and ended by a newline. -/
def render_rows (g : GameState) : Nat → Int → List Char
  | 0, _ => []
  | n + 1, y =>
    [CHAR_BORDER_VERTICAL] ++ render_cells g y BOARD_WIDTH.toNat 1 ++
      [CHAR_BORDER_VERTICAL, CHAR_NL] ++ render_rows g n (y + 1)

/-- The top and the bottom border (source lines 237-240, 260-263). -/
def render_border : List Char :=
  ['+'] ++ List.replicate BOARD_WIDTH.toNat CHAR_BORDER_HORIZONTAL ++ ['+', CHAR_NL]

/-- The conversion `%d` of `printf`: decimal digits, with a minus sign for a
negative value. -/
def fmt_d (n : Int) : List Char :=
  if n < 0 then '-' :: Nat.toDigits 10 (-n).toNat else Nat.toDigits 10 n.toNat

/-- The text that `snprintf` formats (source lines 266-267). -/
def info_text (g : GameState) : List Char :=
  ("Score: ").toList ++ fmt_d g.score ++ [CHAR_TAB] ++ ("Length: ").toList ++
    fmt_d g.snake_len ++ [CHAR_NL] ++
    ("Controls: W/A/S/D or Arrow keys. Press Q to quit.").toList ++ [CHAR_NL]

/-- Everything `render_frame` stores before the info lines: cursor home, top
border, board, bottom border. -/
def frame_head (g : GameState) : List Char :=
  [CHAR_ESC, '[', 'H'] ++ render_border ++ render_rows g BOARD_HEIGHT.toNat 1 ++ render_border

/-- The size of the buffer that `render_frame` allocates. -/
def render_bufsize : Int :=
  let line_len := BOARD_WIDTH + 2 + 1
  let lines := BOARD_HEIGHT + 2 + 2
  (line_len * lines) + 256

/-- What a call of `render_frame` does: nothing when `malloc` fails, the bytes
it hands to `fwrite`, or a run past the stored text when `snprintf` had to
truncate. -/
inductive Rendered where
  | skipped
  | frame (out : List Char)
  | overrun

/-- Source `render_frame(g)`; `buf_ok` says whether `malloc` succeeded.
`snprintf(p, size, ...)` stores the whole text and its terminating NUL exactly
when the length `n` of the text is below `size`; it returns `n`, and the
source then writes `p + n - buf` bytes of the buffer to the output. -/
def render_frame (buf_ok : Bool) (g : GameState) : Rendered :=
  if !buf_ok then Rendered.skipped
  else
    let p := frame_head g
    let text := info_text g
    let n : Int := text.length
    if n < render_bufsize - p.length then Rendered.frame (p ++ text)
    else Rendered.overrun

/-! ## Sample states -/

def start_snake : Int → Point :=
  fun i => if i = 0 then { x := 12, y := 10 } else if i = 1 then { x := 11, y := 10 }
    else { x := 10, y := 10 }

/-- The snake `[(12,10),(11,10),(10,10)]` facing right with food at `(13,10)`. -/
def sample_eat : GameState :=
  { snake := start_snake, snake_len := 3, dir := DIR_RIGHT, food := { x := 13, y := 10 },
    score := 0, game_over := 0 }

/-- A random stream that always returns `n`. -/
def const_rng (n : Nat) : Rng := { seq := fun _ => n, pos := 0 }

/-- The snake `[(1,10),(2,10),(3,10)]` facing left: the head is in the first
column and the next cell is off the board. -/
def sample_wall : GameState :=
  { snake := fun i => { x := 1 + i, y := 10 }, snake_len := 3, dir := DIR_LEFT,
    food := { x := 20, y := 5 }, score := 0, game_over := 0 }

/-! ## Vocabulary of the specification -/

/-- Unit offset of a direction: `y` decreases upwards, `x` increases to the
right. -/
def unit_offset : Direction → Point
  | DIR_UP => { x := 0, y := -1 }
  | DIR_RIGHT => { x := 1, y := 0 }
  | DIR_DOWN => { x := 0, y := 1 }
  | DIR_LEFT => { x := -1, y := 0 }

/-- The candidate head in the words of the specification: the head `snake[0]`
moved by the unit offset of `dir`. -/
def candidate (g : GameState) : Point :=
  { x := (g.snake 0).x + (unit_offset g.dir).x, y := (g.snake 0).y + (unit_offset g.dir).y }

/-- A point outside the board `[1..40] x [1..20]`. -/
def off_board (p : Point) : Prop :=
  p.x < 1 ∨ 40 < p.x ∨ p.y < 1 ∨ 20 < p.y

instance (p : Point) : Decidable (off_board p) := by
  unfold off_board; infer_instance

/-- The point is one of the `snake_len` current segments. -/
def on_snake (g : GameState) (p : Point) : Prop :=
  ¬ ∀ i : Int, 0 ≤ i → i < g.snake_len → g.snake i ≠ p

instance (g : GameState) (p : Point) : Decidable (on_snake g p) := by
  unfold on_snake; infer_instance

/-- The step ends the game: the candidate head is off the board or on the
snake. -/
def collides (g : GameState) : Prop :=
  off_board (candidate g) ∨ on_snake g (candidate g)

instance (g : GameState) : Decidable (collides g) := by
  unfold collides; infer_instance

/-- Manhattan distance of two points. -/
def manhattan (p q : Point) : Int := |p.x - q.x| + |p.y - q.y|

/-- The snake array after the body shift and the write of the new head. -/
def moved_snake (g : GameState) : Int → Point :=
  set_at (fun j => if 1 ≤ j ∧ j < g.snake_len then g.snake (j - 1) else g.snake j) 0
    (candidate g)

/-- The state after a move that eats nothing. -/
def after_move (g : GameState) : GameState :=
  { g with snake := moved_snake g }

/-- The state of an eating step after the growth and the score increment, right
before the call of `place_food`. -/
def after_grow (g : GameState) : GameState :=
  if g.snake_len < 800 then
    { g with
      snake := set_at (moved_snake g) g.snake_len (moved_snake g (g.snake_len - 1))
      snake_len := g.snake_len + 1
      score := int_wrap (g.score + 1) }
  else { g with snake := moved_snake g, score := int_wrap (g.score + 1) }

/-- The first `n` cells of the array are pairwise distinct. -/
def distinct_upto (snake : Int → Point) (n : Int) : Prop :=
  ∀ i : Int, 0 ≤ i → i < n → ∀ j : Int, i < j → j < n → snake i ≠ snake j

instance (snake : Int → Point) (n : Int) : Decidable (distinct_upto snake n) := by
  unfold distinct_upto; infer_instance

/-- The `snake_len` segments of the snake are pairwise distinct. -/
def segments_distinct (g : GameState) : Prop := distinct_upto g.snake g.snake_len

instance (g : GameState) : Decidable (segments_distinct g) := by
  unfold segments_distinct; infer_instance

/-- The step moves the snake onto the food. -/
def eats (g : GameState) : Prop := ¬ collides g ∧ candidate g = g.food

instance (g : GameState) : Decidable (eats g) := by
  unfold eats; infer_instance

/-- The step eats and the array still has room for one more segment. -/
def grows (g : GameState) : Prop := eats g ∧ g.snake_len < 800

instance (g : GameState) : Decidable (grows g) := by
  unfold grows; infer_instance

/-- A snake that uses all 800 cells of the array: head `(12,10)`, then
`(11,10)`, and every further segment on `(10,10)`; it faces right and the food
is on `(13,10)`, right in front of the head. -/
def sample_full : GameState :=
  { snake := start_snake, snake_len := 800, dir := DIR_RIGHT, food := { x := 13, y := 10 },
    score := 0, game_over := 0 }

/-- The snake of `sample_eat`, about to eat, with the score at the largest value
of an `int`. -/
def sample_max_score : GameState :=
  { snake := start_snake, snake_len := 3, dir := DIR_RIGHT, food := { x := 13, y := 10 },
    score := 2147483647, game_over := 0 }

/-- The `k`-th candidate food cell (counting from 0) that a placement loop
draws from the random state `r`: two consecutive `rand_int` calls. -/
def food_candidate (r : Rng) (k : Nat) : Point :=
  { x := (rand_int { r with pos := r.pos + 2 * k } 1 BOARD_WIDTH).1
    y := (rand_int { r with pos := r.pos + 2 * k + 1 } 1 BOARD_HEIGHT).1 }

/-- The food is on none of the `snake_len` segments. -/
def food_free (g : GameState) : Prop :=
  ∀ i : Int, 0 ≤ i → i < g.snake_len → g.snake i ≠ g.food

instance (g : GameState) : Decidable (food_free g) := by
  unfold food_free; infer_instance

/-- The snake `[(1,1),(1,2),(1,3)]` facing right with food at `(2,1)`: after it
eats, the cell `(1,1)` is its second segment. -/
def sample_trap : GameState :=
  { snake := fun i => { x := 1, y := 1 + i }, snake_len := 3, dir := DIR_RIGHT,
    food := { x := 2, y := 1 }, score := 0, game_over := 0 }

/-- The snake `[(12,10),(11,10),(10,10)]` facing up. -/
def sample_up : GameState :=
  { snake := start_snake, snake_len := 3, dir := DIR_UP, food := { x := 13, y := 10 },
    score := 0, game_over := 0 }

/-- Successive calls of `handle_input`, one per tick: before each call the bytes
of the next element of the list arrive and join the bytes still pending. The
result is the state and the bytes left unread after the last call. -/
def input_calls (g : GameState) (pending : List Nat) : List (List Nat) → GameState × List Nat
  | [] => (g, pending)
  | arrival :: later =>
    let res := handle_input g (pending ++ arrival)
    input_calls res.2.1 res.2.2 later

/-- Direction that a movement key asks for: `w W` up, `s S` down, `a A` left,
`d D` right. -/
def key_direction (ch : Int) : Option Direction :=
  if ch = 119 ∨ ch = 87 then some DIR_UP
  else if ch = 115 ∨ ch = 83 then some DIR_DOWN
  else if ch = 97 ∨ ch = 65 then some DIR_LEFT
  else if ch = 100 ∨ ch = 68 then some DIR_RIGHT
  else none

/-- The reverse of a direction. -/
def opposite : Direction → Direction
  | DIR_UP => DIR_DOWN
  | DIR_RIGHT => DIR_LEFT
  | DIR_DOWN => DIR_UP
  | DIR_LEFT => DIR_RIGHT

/-- All `snake_len` segments lie on the board `[1..40] x [1..20]`. -/
def segments_on_board (g : GameState) : Prop :=
  ∀ i : Int, 0 ≤ i → i < g.snake_len → ¬ off_board (g.snake i)

instance (g : GameState) : Decidable (segments_on_board g) := by
  unfold segments_on_board; infer_instance

/-- The indices assigned by the loop
`for (i = snake_len - 1; i > 0; --i) snake[i] = snake[i - 1];`:
`n` iterations starting at index `i`. -/
def shift_writes : Nat → Int → List Int
  | 0, _ => []
  | n + 1, i => i :: shift_writes n (i - 1)

/-- The indices of the array `snake` that `game_step` assigns to, in the order
of the source: none on a collision; otherwise the body shift (line 177), the
head (line 178) and, when the snake eats below capacity, the new tail
(line 182). -/
def game_step_writes (g : GameState) : List Int :=
  let nh := new_head g
  if nh.x < 1 ∨ nh.x > BOARD_WIDTH ∨ nh.y < 1 ∨ nh.y > BOARD_HEIGHT then []
  else if snake_contains g nh.x nh.y 0 ≠ 0 then []
  else
    shift_writes (g.snake_len - 1).toNat (g.snake_len - 1) ++ [0] ++
      (if nh.x = g.food.x ∧ nh.y = g.food.y then
        (if g.snake_len < MAX_SNAKE_LENGTH then [g.snake_len] else [])
      else [])

/-- The distinctness invariant that the step keeps: the first `snake_len - 1`
segments are pairwise distinct, and the last segment equals the second-to-last
or differs from all the others. -/
def weak_distinct (g : GameState) : Prop :=
  distinct_upto g.snake (g.snake_len - 1) ∧
  (g.snake (g.snake_len - 1) = g.snake (g.snake_len - 2) ∨
    ∀ i : Int, 0 ≤ i → i < g.snake_len - 1 → g.snake i ≠ g.snake (g.snake_len - 1))

instance (g : GameState) : Decidable (weak_distinct g) := by
  unfold weak_distinct; infer_instance

/-- The direction agrees with the neck: `snake[0] - snake[1]` is the unit
offset of `dir`. -/
def neck_ok (g : GameState) : Prop :=
  (g.snake 0).x - (g.snake 1).x = (unit_offset g.dir).x ∧
  (g.snake 0).y - (g.snake 1).y = (unit_offset g.dir).y

instance (g : GameState) : Decidable (neck_ok g) := by
  unfold neck_ok; infer_instance

/-- The states the loop of `main` can be in at the top of an iteration or after
it: the state `init_game` returns, and the state after one more iteration from
a reachable state whose flag is unset (the loop test `!game.game_over`). -/
inductive Reachable : GameState → Prop where
  | init (fuel : Nat) (g : GameState) (r : Rng) (g2 : GameState) (r2 : Rng) :
      init_game fuel g r = some (g2, r2) → Reachable g2
  | tick (g : GameState) (q : List Nat) (r : Rng) :
      Reachable g → g.game_over = 0 → Reachable (main_tick g q r).1

/-- The loop `while (!game.game_over) { handle_input; game_step; ... }` of
`main`, run over the bytes that arrive before each iteration (one list element
per iteration). The result is the state with which the loop exits, `none` when
it is still running after the listed iterations. -/
def main_loop (g : GameState) (pending : List Nat) (r : Rng) :
    List (List Nat) → Option GameState
  | [] => if g.game_over ≠ 0 then some g else none
  | arrival :: later =>
    if g.game_over ≠ 0 then some g
    else
      let t := main_tick g (pending ++ arrival) r
      main_loop t.1 t.2.1 t.2.2 later

/-- The values of a 32-bit C `int`. -/
def is_int (n : Int) : Prop := -2147483648 ≤ n ∧ n ≤ 2147483647

instance (n : Int) : Decidable (is_int n) := by
  unfold is_int; infer_instance

/-- The cell character in the words of the specification: `*` if the food is at
`(x, y)`, otherwise `O` if the head is there, otherwise `o` if some segment
with index `1 .. snake_len - 1` is there, otherwise a blank. -/
def spec_cell (g : GameState) (x y : Int) : Char :=
  if g.food = { x := x, y := y } then '*'
  else if g.snake 0 = { x := x, y := y } then 'O'
  else if ¬ ∀ i : Int, 1 ≤ i → i < g.snake_len → g.snake i ≠ { x := x, y := y } then 'o'
  else ' '

/-- A border line of the specification: `+`, 40 times `-`, `+`, newline. -/
def spec_border : List Char :=
  '+' :: (List.replicate 40 '-' ++ ['+', Char.ofNat 10])

/-- The board line of row `y` of the specification: `|`, the 40 cells of the
columns 1..40, `|`, newline. -/
def spec_row (g : GameState) (y : Int) : List Char :=
  '|' :: ((List.range 40).map (fun k : Nat => spec_cell g ((k : Int) + 1) y) ++
    ['|', Char.ofNat 10])

/-- The decimal numeral of an integer, with a leading `-` for a negative one. -/
def spec_decimal (n : Int) : List Char := (toString n).toList

/-- The status line of the specification: `Score: `, the score in decimal, a
tab, `Length: `, the length in decimal, newline. -/
def spec_status (g : GameState) : List Char :=
  ("Score: ").toList ++ spec_decimal g.score ++ [Char.ofNat 9] ++
    ("Length: ").toList ++ spec_decimal g.snake_len ++ [Char.ofNat 10]

/-- The static help line of the specification, ended by a newline. -/
def spec_help : List Char :=
  ("Controls: W/A/S/D or Arrow keys. Press Q to quit.").toList ++ [Char.ofNat 10]

/-- The frame of the specification: cursor home `ESC [ H`, top border, the rows
1..20, bottom border, status line, help line. -/
def spec_frame (g : GameState) : List Char :=
  [Char.ofNat 27, '[', 'H'] ++ spec_border ++
    ((List.range 20).map (fun k : Nat => spec_row g ((k : Int) + 1))).flatten ++
    spec_border ++ spec_status g ++ spec_help

/-! ## Auxiliary facts about the loops -/

theorem point_eq_iff (p : Point) (x y : Int) :
    p = { x := x, y := y } ↔ p.x = x ∧ p.y = y := by
  cases p
  simp

theorem snake_scan_true_iff (snake : Int → Point) (x y : Int) (n : Nat) (i : Int) :
    snake_scan snake x y n i = true ↔
      ∃ j : Int, i ≤ j ∧ j < i + n ∧ snake j = { x := x, y := y } := by
  induction n generalizing i with
  | zero =>
    simp only [snake_scan, Bool.false_eq_true, false_iff, not_exists]
    intro j hj
    have h1 := hj.1
    have h2 := hj.2.1
    simp at h2
    omega
  | succ n ih =>
    simp only [snake_scan]
    by_cases h : (snake i).x = x ∧ (snake i).y = y
    · simp only [h, and_self, if_true, true_iff]
      exact ⟨i, le_refl _, by push_cast; omega, (point_eq_iff _ _ _).2 h⟩
    · rw [if_neg h, ih]
      constructor
      · rintro ⟨j, h1, h2, h3⟩
        exact ⟨j, by omega, by push_cast; omega, h3⟩
      · rintro ⟨j, h1, h2, h3⟩
        have hne : j ≠ i := by
          intro e
          subst e
          exact h ((point_eq_iff _ _ _).1 h3)
        push_cast at h2
        exact ⟨j, by omega, by omega, h3⟩

theorem snake_contains_ne_zero_iff (g : GameState) (p : Point) :
    snake_contains g p.x p.y 0 ≠ 0 ↔ on_snake g p := by
  unfold snake_contains on_snake
  simp only [ne_eq, not_true_eq_false, if_false, Int.sub_zero]
  by_cases hs : snake_scan g.snake p.x p.y g.snake_len.toNat 0 = true
  · rw [if_pos hs]
    simp only [one_ne_zero, not_false_eq_true, true_iff]
    obtain ⟨j, h1, h2, h3⟩ := (snake_scan_true_iff _ _ _ _ _).1 hs
    intro hall
    exact hall j h1 (by omega) h3
  · rw [if_neg hs]
    simp only [not_true_eq_false, false_iff, not_not]
    intro i h0 hlt heq
    apply hs
    exact (snake_scan_true_iff _ _ _ _ _).2 ⟨i, h0, by omega, by rw [heq]⟩

theorem new_head_eq_candidate (g : GameState) : new_head g = candidate g := by
  unfold new_head candidate
  cases hd : g.dir <;> simp [unit_offset, sub_eq_add_neg]

theorem shift_body_apply (snake : Int → Point) (n : Nat) (i j : Int) :
    shift_body snake n i j = if i - n < j ∧ j ≤ i then snake (j - 1) else snake j := by
  induction n generalizing snake i with
  | zero =>
    have : ¬ (i - ((0 : Nat) : Int) < j ∧ j ≤ i) := by
      simp only [Nat.cast_zero, sub_zero]
      omega
    rw [if_neg this]
    rfl
  | succ n ih =>
    simp only [shift_body]
    rw [ih]
    by_cases h1 : i - 1 - (n : Int) < j ∧ j ≤ i - 1
    · have h2 : i - ((n + 1 : Nat) : Int) < j ∧ j ≤ i := by push_cast; omega
      have h3 : j - 1 ≠ i := by omega
      rw [if_pos h1, if_pos h2]
      simp [set_at, h3]
    · rw [if_neg h1]
      by_cases h4 : j = i
      · have h2 : i - ((n + 1 : Nat) : Int) < j ∧ j ≤ i := by push_cast; omega
        rw [if_pos h2]
        simp [set_at, h4]
      · have h2 : ¬ (i - ((n + 1 : Nat) : Int) < j ∧ j ≤ i) := by push_cast; omega
        rw [if_neg h2]
        simp [set_at, h4]

/-- The body shift of `game_step` in closed form. -/
theorem shift_body_game (g : GameState) (j : Int) :
    shift_body g.snake (g.snake_len - 1).toNat (g.snake_len - 1) j =
      if 1 ≤ j ∧ j < g.snake_len then g.snake (j - 1) else g.snake j := by
  rw [shift_body_apply]
  by_cases h : 1 ≤ j ∧ j < g.snake_len
  · rw [if_pos h, if_pos]
    omega
  · rw [if_neg h, if_neg]
    omega

theorem place_food_fst (g : GameState) (r : Rng) :
    (place_food g r).1 = { g with food := (place_food_loop g 10000 r).1 } := rfl

/-- On a collision `game_step` only raises the termination flag. -/
theorem game_step_of_collides (g : GameState) (r : Rng) (h : collides g) :
    game_step g r = ({ g with game_over := 1 }, r) := by
  unfold game_step
  rw [new_head_eq_candidate]
  by_cases hb : off_board (candidate g)
  · have hb2 := hb
    unfold off_board at hb2
    simp only [BOARD_WIDTH, BOARD_HEIGHT, gt_iff_lt]
    rw [if_pos hb2]
  · have hs : on_snake g (candidate g) := h.resolve_left hb
    simp only [BOARD_WIDTH, BOARD_HEIGHT, gt_iff_lt]
    unfold off_board at hb
    rw [if_neg hb, if_pos ((snake_contains_ne_zero_iff g (candidate g)).2 hs)]

/-- Without a collision `game_step` keeps the termination flag. -/
theorem game_step_game_over_of_not_collides (g : GameState) (r : Rng) (h : ¬ collides g) :
    (game_step g r).1.game_over = g.game_over := by
  unfold collides at h
  push_neg at h
  unfold game_step
  rw [new_head_eq_candidate]
  have hb := h.1
  unfold off_board at hb
  simp only [BOARD_WIDTH, BOARD_HEIGHT, gt_iff_lt]
  rw [if_neg hb, if_neg (fun hc => h.2 ((snake_contains_ne_zero_iff g (candidate g)).1 hc))]
  split_ifs <;> simp [place_food_fst]

/-- Without a collision `game_step` moves the snake and, when the new head is
on the food, grows it, counts the point and places new food. -/
theorem game_step_of_not_collides (g : GameState) (r : Rng) (h : ¬ collides g) :
    game_step g r =
      if candidate g = g.food then place_food (after_grow g) r else (after_move g, r) := by
  unfold collides at h
  push_neg at h
  have hb := h.1
  unfold off_board at hb
  have hshift : shift_body g.snake (g.snake_len - 1).toNat (g.snake_len - 1) =
      fun j => if 1 ≤ j ∧ j < g.snake_len then g.snake (j - 1) else g.snake j :=
    funext (shift_body_game g)
  unfold game_step
  rw [new_head_eq_candidate]
  simp only [BOARD_WIDTH, BOARD_HEIGHT, MAX_SNAKE_LENGTH, gt_iff_lt]
  rw [if_neg hb, if_neg (fun hc => h.2 ((snake_contains_ne_zero_iff g (candidate g)).1 hc)),
    hshift]
  have h0 : set_at (fun j => if 1 ≤ j ∧ j < g.snake_len then g.snake (j - 1) else g.snake j) 0
      (candidate g) 0 = candidate g := by simp [set_at]
  rw [h0]
  by_cases he : candidate g = g.food
  · have he2 : (candidate g).x = g.food.x ∧ (candidate g).y = g.food.y := by rw [he]; simp
    rw [if_pos he2, if_pos he]
    unfold after_grow moved_snake
    norm_num
    split_ifs <;> rfl
  · have he2 : ¬ ((candidate g).x = g.food.x ∧ (candidate g).y = g.food.y) := by
      intro hx
      apply he
      cases hc : candidate g
      cases hf : g.food
      rw [hc, hf] at hx
      simp at hx
      simp [hx.1, hx.2]
    rw [if_neg he2, if_neg he]
    rfl

/-- Without a collision the first `snake_len` cells after the step are those of
the moved snake, also when the step eats. -/
theorem game_step_snake_of_not_collides (g : GameState) (r : Rng) (h : ¬ collides g)
    (i : Int) (hi : i < g.snake_len) : (game_step g r).1.snake i = moved_snake g i := by
  rw [game_step_of_not_collides g r h]
  by_cases he : candidate g = g.food
  · rw [if_pos he, place_food_fst]
    unfold after_grow
    split_ifs with hcap
    · have hne : i ≠ g.snake_len := by omega
      simp [set_at, hne]
    · rfl
  · rw [if_neg he]
    rfl

theorem moved_snake_zero (g : GameState) : moved_snake g 0 = candidate g := by
  simp [moved_snake, set_at]

theorem moved_snake_body (g : GameState) (j : Int) (h1 : 1 ≤ j) (h2 : j < g.snake_len) :
    moved_snake g j = g.snake (j - 1) := by
  have hne : j ≠ 0 := by omega
  simp [moved_snake, set_at, hne, h1, h2]

/-! ## Properties of `game_step` -/

/-- C1: from a state whose termination flag is unset, `game_step` sets
`game_over` exactly when the candidate head (the head moved by the unit offset
of `dir`) is outside the board `[1..40] x [1..20]` or equals one of the
`snake_len` current segments (the tail cell included); in every other case the
flag stays unset. -/
theorem game_step_sets_game_over_iff (g : GameState) (r : Rng) (h0 : g.game_over = 0) :
    ((game_step g r).1.game_over = 1 ↔
      (off_board (candidate g) ∨
        ∃ i : Int, 0 ≤ i ∧ i < g.snake_len ∧ g.snake i = candidate g)) ∧
    (¬ (off_board (candidate g) ∨
        ∃ i : Int, 0 ≤ i ∧ i < g.snake_len ∧ g.snake i = candidate g) →
      (game_step g r).1.game_over = 0) := by
  have hex : (∃ i : Int, 0 ≤ i ∧ i < g.snake_len ∧ g.snake i = candidate g) ↔
      on_snake g (candidate g) := by
    unfold on_snake
    push_neg
    rfl
  rw [hex]
  by_cases hc : collides g
  · have hc2 := hc
    unfold collides at hc2
    rw [game_step_of_collides g r hc]
    simp [hc2]
  · have hc2 := hc
    unfold collides at hc2
    rw [game_step_game_over_of_not_collides g r hc, h0]
    simp [hc2]

theorem game_step_sets_game_over_iff_witness :
    ((game_step sample_wall (const_rng 0)).1.game_over = 1 ↔
      (off_board (candidate sample_wall) ∨
        ∃ i : Int, 0 ≤ i ∧ i < sample_wall.snake_len ∧
          sample_wall.snake i = candidate sample_wall)) ∧
    (¬ (off_board (candidate sample_wall) ∨
        ∃ i : Int, 0 ≤ i ∧ i < sample_wall.snake_len ∧
          sample_wall.snake i = candidate sample_wall) →
      (game_step sample_wall (const_rng 0)).1.game_over = 0) :=
  game_step_sets_game_over_iff sample_wall (const_rng 0) rfl

/-- C2: when `game_step` sets the termination flag (the candidate head is off
the board or on the snake; in particular whenever an unset flag comes out set),
the snake segments, `snake_len`, `dir`, `food` and `score` after the call equal
those before it. -/
theorem game_step_termination_frame (g : GameState) (r : Rng)
    (h : collides g ∨ (g.game_over = 0 ∧ (game_step g r).1.game_over = 1)) :
    (game_step g r).1.snake = g.snake ∧
    (game_step g r).1.snake_len = g.snake_len ∧
    (game_step g r).1.dir = g.dir ∧
    (game_step g r).1.food = g.food ∧
    (game_step g r).1.score = g.score ∧
    (game_step g r).1.game_over = 1 := by
  have hc : collides g := by
    rcases h with h | ⟨h0, h1⟩
    · exact h
    · by_contra hn
      rw [game_step_game_over_of_not_collides g r hn, h0] at h1
      exact absurd h1 (by decide)
  rw [game_step_of_collides g r hc]
  exact ⟨rfl, rfl, rfl, rfl, rfl, rfl⟩

theorem game_step_termination_frame_witness :
    (sample_wall.snake 0 = { x := 1, y := 10 } ∧ sample_wall.dir = DIR_LEFT) ∧
    ((game_step sample_wall (const_rng 0)).1.snake = sample_wall.snake ∧
    (game_step sample_wall (const_rng 0)).1.snake_len = sample_wall.snake_len ∧
    (game_step sample_wall (const_rng 0)).1.dir = sample_wall.dir ∧
    (game_step sample_wall (const_rng 0)).1.food = sample_wall.food ∧
    (game_step sample_wall (const_rng 0)).1.score = sample_wall.score ∧
    (game_step sample_wall (const_rng 0)).1.game_over = 1) :=
  ⟨by decide, game_step_termination_frame sample_wall (const_rng 0) (Or.inl (by decide))⟩

/-- C3: on a state with `snake_len >= 1` on which `game_step` does not terminate
(no wall or self collision), the new head is the old head moved by the unit
offset of `dir`, at Manhattan distance exactly 1 from the old head, and every
segment `1 <= i < snake_len` takes the old position of segment `i - 1`. -/
theorem game_step_shifts_body (g : GameState) (r : Rng) (hlen : 1 ≤ g.snake_len)
    (h : ¬ collides g) :
    (game_step g r).1.snake 0 =
      { x := (g.snake 0).x + (unit_offset g.dir).x,
        y := (g.snake 0).y + (unit_offset g.dir).y } ∧
    manhattan ((game_step g r).1.snake 0) (g.snake 0) = 1 ∧
    (∀ i : Int, 1 ≤ i → i < g.snake_len → (game_step g r).1.snake i = g.snake (i - 1)) := by
  have h0 : (game_step g r).1.snake 0 = candidate g := by
    rw [game_step_snake_of_not_collides g r h 0 (by omega), moved_snake_zero]
  refine ⟨h0, ?_, ?_⟩
  · rw [h0]
    unfold manhattan candidate
    cases g.dir <;> simp [unit_offset]
  · intro i h1 h2
    rw [game_step_snake_of_not_collides g r h i h2, moved_snake_body g i h1 h2]

theorem game_step_shifts_body_witness :
    (game_step sample_eat (const_rng 0)).1.snake 0 = { x := 12 + 1, y := 10 + 0 } ∧
    manhattan ((game_step sample_eat (const_rng 0)).1.snake 0) (sample_eat.snake 0) = 1 ∧
    (∀ i : Int, 1 ≤ i → i < 3 →
      (game_step sample_eat (const_rng 0)).1.snake i = sample_eat.snake (i - 1)) :=
  game_step_shifts_body sample_eat (const_rng 0) (by decide) (by decide)

theorem start_snake_ne (i : Int) : start_snake i ≠ { x := 13, y := 10 } := by
  unfold start_snake
  split_ifs <;> decide

theorem sample_full_eats : eats sample_full := by
  refine ⟨?_, by decide⟩
  rintro (hb | hs)
  · exact absurd hb (by decide)
  · exact hs (fun i _ _ => start_snake_ne i)

/-- C4, the claim as stated fails at full capacity, and at the largest `int`
score: with `snake_len = 800` a step that moves the head onto the food raises
the score but leaves `snake_len` at 800; and with `score = 2147483647` the
eating step of the snake `[(12,10),(11,10),(10,10)]` leaves the score at
`-2147483648`, not one higher. -/
theorem game_step_score_length_limits :
    (3 ≤ sample_full.snake_len ∧ sample_full.snake_len ≤ 800 ∧
      (game_step sample_full (const_rng 0)).1.game_over = 0 ∧
      (game_step sample_full (const_rng 0)).1.snake 0 = sample_full.food ∧
      (game_step sample_full (const_rng 0)).1.score = sample_full.score + 1 ∧
      (game_step sample_full (const_rng 0)).1.snake_len = 800 ∧
      (game_step sample_full (const_rng 0)).1.snake_len ≠ sample_full.snake_len + 1) ∧
    (3 ≤ sample_max_score.snake_len ∧ sample_max_score.snake_len ≤ 800 ∧
      (game_step sample_max_score (const_rng 0)).1.game_over = 0 ∧
      (game_step sample_max_score (const_rng 0)).1.snake 0 = sample_max_score.food ∧
      (game_step sample_max_score (const_rng 0)).1.score = -2147483648 ∧
      (game_step sample_max_score (const_rng 0)).1.score ≠ sample_max_score.score + 1) := by
  have h := game_step_of_not_collides sample_full (const_rng 0) sample_full_eats.1
  rw [if_pos sample_full_eats.2] at h
  rw [h, place_food_fst]
  refine ⟨⟨by decide, by decide, ?_, ?_, ?_, ?_, ?_⟩, ?_⟩
  · decide
  · decide
  · decide
  · decide
  · decide
  · refine ⟨by decide, by decide, ?_, ?_, ?_, ?_⟩ <;> decide

theorem int_wrap_of_is_int (n : Int) (h : is_int n) : int_wrap n = n := by
  unfold is_int at h
  unfold int_wrap
  omega

/-- C4 (amended): for `3 <= snake_len <= 800`, a step that moves the snake onto
the pre-step food raises `score` by exactly 1 when `score` is an `int` below
`INT_MAX = 2147483647`, and raises `snake_len` by exactly 1 while
`snake_len < 800` (at `snake_len = 800` the length stays); every other step
leaves `score` and `snake_len` unchanged. -/
theorem game_step_score_and_length (g : GameState) (r : Rng)
    (h3 : 3 ≤ g.snake_len) (h800 : g.snake_len ≤ 800) :
    ((¬ collides g ∧ (game_step g r).1.snake 0 = g.food) →
      (is_int g.score → g.score < 2147483647 → (game_step g r).1.score = g.score + 1) ∧
      (game_step g r).1.snake_len = if g.snake_len < 800 then g.snake_len + 1 else g.snake_len) ∧
    (¬ (¬ collides g ∧ (game_step g r).1.snake 0 = g.food) →
      (game_step g r).1.score = g.score ∧ (game_step g r).1.snake_len = g.snake_len) := by
  by_cases hc : collides g
  · rw [game_step_of_collides g r hc]
    simp [hc]
  · rw [game_step_snake_of_not_collides g r hc 0 (by omega), moved_snake_zero]
    rw [game_step_of_not_collides g r hc]
    by_cases he : candidate g = g.food
    · rw [if_pos he, place_food_fst]
      have hw : is_int g.score → g.score < 2147483647 → int_wrap (g.score + 1) = g.score + 1 := by
        intro hs hlt
        apply int_wrap_of_is_int
        unfold is_int at hs ⊢
        omega
      unfold after_grow
      simp only [hc, he, not_false_eq_true, and_self, true_implies, not_true_eq_false,
        false_implies, and_true]
      split_ifs <;> exact ⟨hw, rfl⟩
    · rw [if_neg he]
      simp only [hc, he, not_false_eq_true, and_false, false_implies, true_implies, true_and]
      exact ⟨rfl, rfl⟩

theorem game_step_score_and_length_witness :
    (game_step sample_eat (const_rng 0)).1.score = 0 + 1 ∧
    (game_step sample_eat (const_rng 0)).1.snake_len = if (3 : Int) < 800 then 3 + 1 else 3 :=
  ⟨((game_step_score_and_length sample_eat (const_rng 0) (by decide) (by decide)).1
      ⟨by decide, by decide⟩).1 (by decide) (by decide),
    ((game_step_score_and_length sample_eat (const_rng 0) (by decide) (by decide)).1
      ⟨by decide, by decide⟩).2⟩

theorem segment_ne_candidate (g : GameState) (h : ¬ collides g) (i : Int) (h0 : 0 ≤ i)
    (hlt : i < g.snake_len) : g.snake i ≠ candidate g := by
  intro he
  apply h
  right
  intro hall
  exact hall i h0 hlt he

/-- A move without collision keeps the segments pairwise distinct. -/
theorem moved_snake_distinct (g : GameState) (hd : segments_distinct g) (hc : ¬ collides g) :
    distinct_upto (moved_snake g) g.snake_len := by
  intro i hi0 hin j hij hjn
  rw [moved_snake_body g j (by omega) hjn]
  by_cases hi : i = 0
  · subst hi
    rw [moved_snake_zero]
    exact fun e => segment_ne_candidate g hc (j - 1) (by omega) (by omega) e.symm
  · rw [moved_snake_body g i (by omega) hin]
    exact hd (i - 1) (by omega) (by omega) (j - 1) (by omega) (by omega)

/-- C5, the claim as stated fails on an eating step: the snake
`[(12,10),(11,10),(10,10)]` is duplicate-free, and after it eats the food at
`(13,10)` its four segments are `[(13,10),(12,10),(11,10),(11,10)]`. -/
theorem game_step_eat_duplicates_tail :
    segments_distinct sample_eat ∧
    (game_step sample_eat (const_rng 0)).1.snake_len = 4 ∧
    (game_step sample_eat (const_rng 0)).1.snake 2 =
      (game_step sample_eat (const_rng 0)).1.snake 3 ∧
    ¬ segments_distinct (game_step sample_eat (const_rng 0)).1 := by
  refine ⟨by decide, by decide, by decide, ?_⟩
  intro h
  exact h 2 (by decide) (by decide) 3 (by decide) (by decide) (by decide)

/-- C5 (amended): from a state whose `snake_len` segments are pairwise distinct,
a `game_step` that does not grow the snake (collision, no food, or capacity
reached) leaves the segments pairwise distinct; a step that eats and grows the
snake makes `snake_len` one larger, keeps the first `snake_len - 1` segments of
the result pairwise distinct, and the appended last segment is a copy of the
segment before it. -/
theorem game_step_distinct (g : GameState) (r : Rng) (hd : segments_distinct g) :
    (¬ grows g → segments_distinct (game_step g r).1) ∧
    (grows g →
      (game_step g r).1.snake_len = g.snake_len + 1 ∧
      distinct_upto (game_step g r).1.snake g.snake_len ∧
      (1 ≤ g.snake_len →
        (game_step g r).1.snake g.snake_len = (game_step g r).1.snake (g.snake_len - 1))) := by
  by_cases hc : collides g
  · have hg : ¬ grows g := fun hg => hg.1.1 hc
    rw [game_step_of_collides g r hc]
    exact ⟨fun _ => hd, fun h => absurd h hg⟩
  · rw [game_step_of_not_collides g r hc]
    by_cases he : candidate g = g.food
    · rw [if_pos he, place_food_fst]
      by_cases hcap : g.snake_len < 800
      · have hg : grows g := ⟨⟨hc, he⟩, hcap⟩
        refine ⟨fun h => absurd hg h, fun _ => ?_⟩
        unfold after_grow
        rw [if_pos hcap]
        refine ⟨rfl, ?_, ?_⟩
        · intro i hi0 hin j hij hjn
          have hi : i ≠ g.snake_len := by omega
          have hj : j ≠ g.snake_len := by omega
          have := moved_snake_distinct g hd hc i hi0 hin j hij hjn
          simpa [set_at, hi, hj] using this
        · intro _
          simp [set_at]
      · have hg : ¬ grows g := fun hg => hcap hg.2
        refine ⟨fun _ => ?_, fun h => absurd h hg⟩
        unfold after_grow
        rw [if_neg hcap]
        exact moved_snake_distinct g hd hc
    · have hg : ¬ grows g := fun hg => he hg.1.2
      rw [if_neg he]
      exact ⟨fun _ => moved_snake_distinct g hd hc, fun h => absurd h hg⟩

theorem game_step_distinct_witness :
    segments_distinct sample_eat ∧ grows sample_eat ∧
    (game_step sample_eat (const_rng 0)).1.snake_len = 3 + 1 ∧
    distinct_upto (game_step sample_eat (const_rng 0)).1.snake 3 ∧
    ((1 : Int) ≤ 3 →
      (game_step sample_eat (const_rng 0)).1.snake 3 =
        (game_step sample_eat (const_rng 0)).1.snake (3 - 1)) :=
  ⟨by decide, by decide,
    (game_step_distinct sample_eat (const_rng 0) (by decide)).2 (by decide)⟩

/-! ## Food placement -/

theorem on_snake_iff_scan (g : GameState) (p : Point) :
    on_snake g p ↔ snake_scan g.snake p.x p.y g.snake_len.toNat 0 = true := by
  rw [← snake_contains_ne_zero_iff]
  unfold snake_contains
  simp

theorem food_candidate_shift (r : Rng) (k : Nat) :
    food_candidate { r with pos := r.pos + 2 } k = food_candidate r (k + 1) := by
  unfold food_candidate
  have h1 : r.pos + 2 + 2 * k = r.pos + 2 * (k + 1) := by omega
  simp only [h1]

theorem place_food_loop_zero (g : GameState) (r : Rng) :
    place_food_loop g 0 r = (food_candidate r 0, { r with pos := r.pos + 2 }) := rfl

theorem place_food_loop_succ (g : GameState) (left : Nat) (r : Rng) :
    place_food_loop g (left + 1) r =
      if on_snake g (food_candidate r 0) then place_food_loop g left { r with pos := r.pos + 2 }
      else (food_candidate r 0, { r with pos := r.pos + 2 }) := by
  rw [place_food_loop]
  simp only [snake_contains_ne_zero_iff g
    { x := (rand_int r 1 BOARD_WIDTH).1, y := (rand_int (rand_int r 1 BOARD_WIDTH).2 1 BOARD_HEIGHT).1 }]
  rfl

/-- What the loop of `place_food` returns: the first candidate that is off the
snake, or the last candidate the cap allows when all earlier ones were on the
snake; each candidate costs two calls of `rand()`. -/
theorem place_food_loop_spec (g : GameState) (left : Nat) (r : Rng) :
    ∃ k : Nat, k ≤ left ∧
      place_food_loop g left r = (food_candidate r k, { r with pos := r.pos + 2 * (k + 1) }) ∧
      (∀ j : Nat, j < k → on_snake g (food_candidate r j)) ∧
      (k < left → ¬ on_snake g (food_candidate r k)) := by
  induction left generalizing r with
  | zero =>
    exact ⟨0, le_refl _, rfl, fun j hj => absurd hj (Nat.not_lt_zero j), fun h => absurd h (lt_irrefl _)⟩
  | succ left ih =>
    rw [place_food_loop_succ]
    by_cases h0 : on_snake g (food_candidate r 0)
    · rw [if_pos h0]
      obtain ⟨k, hk, heq, hall, hoff⟩ := ih { r with pos := r.pos + 2 }
      refine ⟨k + 1, by omega, ?_, ?_, ?_⟩
      · rw [heq, food_candidate_shift]
        have : r.pos + 2 + 2 * (k + 1) = r.pos + 2 * (k + 1 + 1) := by omega
        simp only [this]
      · intro j hj
        cases j with
        | zero => exact h0
        | succ j =>
          rw [← food_candidate_shift]
          exact hall j (by omega)
      · intro hlt
        rw [← food_candidate_shift]
        exact hoff (by omega)
    · rw [if_neg h0]
      exact ⟨0, by omega, rfl, fun j hj => absurd hj (Nat.not_lt_zero j), fun _ => h0⟩

theorem place_food_loop_off_snake (g : GameState) (left : Nat) (r : Rng)
    (h : ∃ k : Nat, k ≤ left ∧ ¬ on_snake g (food_candidate r k)) :
    ¬ on_snake g (place_food_loop g left r).1 := by
  obtain ⟨k0, hk0, hoff0⟩ := h
  obtain ⟨k, hk, heq, hall, hoff⟩ := place_food_loop_spec g left r
  rw [heq]
  by_cases hlt : k < left
  · exact hoff hlt
  · have hk0k : ¬ k0 < k := fun hl => hoff0 (hall k0 hl)
    have : k0 = k := by omega
    rw [← this]
    exact hoff0

theorem init_food_loop_some (g : GameState) (fuel : Nat) (r : Rng) (p : Point) (r2 : Rng)
    (h : init_food_loop g fuel r = some (p, r2)) :
    ¬ on_snake g p ∧ ∃ k : Nat, k < fuel ∧ p = food_candidate r k := by
  induction fuel generalizing r with
  | zero => simp [init_food_loop] at h
  | succ fuel ih =>
    rw [init_food_loop] at h
    split_ifs at h with hs
    · obtain ⟨h1, k, hk, hp⟩ := ih _ h
      refine ⟨h1, k + 1, by omega, ?_⟩
      rw [hp, ← food_candidate_shift]
      rfl
    · simp only [Option.some.injEq, Prod.mk.injEq] at h
      refine ⟨?_, 0, by omega, h.1.symm⟩
      rw [on_snake_iff_scan, ← h.1]
      exact hs

theorem init_food_loop_returns (g : GameState) (fuel : Nat) (r : Rng) (k : Nat) (hk : k < fuel)
    (hoff : ¬ on_snake g (food_candidate r k)) : (init_food_loop g fuel r).isSome = true := by
  induction fuel generalizing r k with
  | zero => omega
  | succ fuel ih =>
    rw [init_food_loop]
    split_ifs with hs
    · have h0 : on_snake g (food_candidate r 0) := (on_snake_iff_scan g _).2 hs
      cases k with
      | zero => exact absurd h0 hoff
      | succ k =>
        apply ih _ k (by omega)
        have := food_candidate_shift r k
        rw [← this] at hoff
        exact hoff
    · rfl

theorem place_food_food (g : GameState) (r : Rng) :
    (place_food g r).1.food = (place_food_loop g 10000 r).1 := rfl

theorem food_free_iff (g : GameState) : food_free g ↔ ¬ on_snake g g.food := by
  unfold food_free on_snake
  rw [not_not]

theorem food_free_place_food (g : GameState) (r : Rng)
    (h : ∃ k : Nat, k ≤ 10000 ∧ ¬ on_snake g (food_candidate r k)) :
    food_free (place_food g r).1 := by
  rw [food_free_iff]
  exact place_food_loop_off_snake g 10000 r h

theorem food_free_after_move (g : GameState) (hf : food_free g)
    (he : candidate g ≠ g.food) : food_free (after_move g) := by
  intro i hi0 hin
  have hin : i < g.snake_len := hin
  show moved_snake g i ≠ g.food
  by_cases hi : i = 0
  · subst hi
    rw [moved_snake_zero]
    exact he
  · rw [moved_snake_body g i (by omega) hin]
    exact hf (i - 1) (by omega) (by omega)

theorem const_rng_candidate (k : Nat) : food_candidate (const_rng 0) k = { x := 1, y := 1 } := rfl

theorem sample_trap_eats : eats sample_trap := by decide

/-- C6, the claim as stated fails when the attempt cap of `place_food` is hit:
the snake `[(1,1),(1,2),(1,3)]` eats the food at `(2,1)`, every candidate drawn
from the all-zero random stream is the cell `(1,1)`, now the second segment,
and after 10001 attempts the food is left there. -/
theorem game_step_food_on_snake :
    food_free sample_trap ∧
    (game_step sample_trap (const_rng 0)).1.snake_len = 4 ∧
    (game_step sample_trap (const_rng 0)).1.snake 1 = { x := 1, y := 1 } ∧
    (game_step sample_trap (const_rng 0)).1.food = { x := 1, y := 1 } ∧
    ¬ food_free (game_step sample_trap (const_rng 0)).1 := by
  have hfood : (game_step sample_trap (const_rng 0)).1.food = { x := 1, y := 1 } := by
    rw [game_step_of_not_collides _ _ sample_trap_eats.1, if_pos sample_trap_eats.2,
      place_food_food]
    obtain ⟨k, _, heq, _, _⟩ :=
      place_food_loop_spec (after_grow sample_trap) 10000 (const_rng 0)
    rw [heq]
    exact const_rng_candidate k
  have hseg : (game_step sample_trap (const_rng 0)).1.snake 1 = { x := 1, y := 1 } := by
    decide
  have hlen : (game_step sample_trap (const_rng 0)).1.snake_len = 4 := by decide
  refine ⟨by decide, hlen, hseg, hfood, ?_⟩
  intro hfree
  apply hfree 1 (by decide) (by rw [hlen]; decide)
  rw [hseg, hfood]

/-- C6 (amended): the food is on none of the `snake_len` segments (i) after
`init_game`, whenever it returns; (ii) after `place_food`, whenever at least one
of the at most 10001 candidate cells it draws is off the snake; (iii) after a
`game_step` from a state in which the food was on no segment, whenever the step
eats nothing or one of the at most 10001 candidates of its `place_food` call is
off the grown snake. -/
theorem food_off_snake (g : GameState) (r : Rng) :
    (∀ (fuel : Nat) (g2 : GameState) (r2 : Rng),
      init_game fuel g r = some (g2, r2) → food_free g2) ∧
    ((∃ k : Nat, k ≤ 10000 ∧ ¬ on_snake g (food_candidate r k)) →
      food_free (place_food g r).1) ∧
    (food_free g →
      (¬ eats g ∨ ∃ k : Nat, k ≤ 10000 ∧ ¬ on_snake (after_grow g) (food_candidate r k)) →
      food_free (game_step g r).1) := by
  refine ⟨?_, food_free_place_food g r, ?_⟩
  · intro fuel g2 r2 h
    unfold init_game at h
    split at h
    · exact absurd h (by simp)
    · rename_i res hres
      simp only [Option.some.injEq, Prod.mk.injEq] at h
      have hoff := (init_food_loop_some _ fuel r res.1 res.2 hres).1
      rw [← h.1, food_free_iff]
      exact hoff
  · intro hf hcase
    by_cases hc : collides g
    · rw [game_step_of_collides g r hc]
      exact hf
    · rw [game_step_of_not_collides g r hc]
      by_cases he : candidate g = g.food
      · rw [if_pos he]
        rcases hcase with hne | hex
        · exact absurd ⟨hc, he⟩ hne
        · exact food_free_place_food (after_grow g) r hex
      · rw [if_neg he]
        exact food_free_after_move g hf he

theorem food_off_snake_witness :
    (∃ (g2 : GameState) (r2 : Rng),
      init_game 1 sample_eat (const_rng 0) = some (g2, r2) ∧ food_free g2) ∧
    food_free (place_food sample_eat (const_rng 0)).1 ∧
    food_free (game_step sample_eat (const_rng 0)).1 :=
  ⟨⟨_, _, rfl, (food_off_snake sample_eat (const_rng 0)).1 1 _ _ rfl⟩,
    (food_off_snake sample_eat (const_rng 0)).2.1 ⟨0, by decide, by decide⟩,
    (food_off_snake sample_eat (const_rng 0)).2.2 (by decide)
      (Or.inr ⟨0, by decide, by decide⟩)⟩

/-! ## Input handling -/

theorem game_step_dir (g : GameState) (r : Rng) : (game_step g r).1.dir = g.dir := by
  by_cases hc : collides g
  · rw [game_step_of_collides g r hc]
  · rw [game_step_of_not_collides g r hc]
    split_ifs
    · rw [place_food_fst]
      unfold after_grow
      split_ifs <;> rfl
    · rfl

theorem game_step_keeps_flag_set (g : GameState) (r : Rng) (h : g.game_over = 1) :
    (game_step g r).1.game_over = 1 := by
  by_cases hc : collides g
  · rw [game_step_of_collides g r hc]
  · rw [game_step_game_over_of_not_collides g r hc, h]

/-- C7, the claim as stated fails: in a tick whose pending key is `q` the flag
is set, yet `game_step` still runs: the snake `[(12,10),(11,10),(10,10)]` moves
onto the food at `(13,10)`, grows to 4 segments and the score becomes 1. -/
theorem quit_key_still_steps :
    (main_tick sample_eat [113] (const_rng 0)).1.game_over = 1 ∧
    (main_tick sample_eat [113] (const_rng 0)).1.snake 0 = { x := 13, y := 10 } ∧
    (main_tick sample_eat [113] (const_rng 0)).1.snake 0 ≠ sample_eat.snake 0 ∧
    (main_tick sample_eat [113] (const_rng 0)).1.snake_len ≠ sample_eat.snake_len ∧
    (main_tick sample_eat [113] (const_rng 0)).1.food ≠ sample_eat.food ∧
    (main_tick sample_eat [113] (const_rng 0)).1.score ≠ sample_eat.score := by
  refine ⟨?_, ?_, ?_, ?_, ?_, ?_⟩ <;> decide

/-- C7 (amended): in one iteration of the main loop whose pending key is `q` or
`Q`, that byte is consumed and the termination flag is set, but the step of the
tick is still performed: the state after the iteration is `game_step` applied
to the pre-state with the flag set. The flag is still set and `dir` unchanged
after the iteration. -/
theorem quit_tick (g : GameState) (key : Nat) (later : List Nat) (r : Rng)
    (hk : key = 113 ∨ key = 81) :
    main_tick g (key :: later) r =
      ((game_step { g with game_over := 1 } r).1, later,
        (game_step { g with game_over := 1 } r).2) ∧
    (main_tick g (key :: later) r).1.game_over = 1 ∧
    (main_tick g (key :: later) r).1.dir = g.dir := by
  have hin : handle_input g (key :: later) = (1, { g with game_over := 1 }, later) := by
    rcases hk with hk | hk <;> subst hk <;> rfl
  have hm : main_tick g (key :: later) r =
      ((game_step { g with game_over := 1 } r).1, later,
        (game_step { g with game_over := 1 } r).2) := by
    unfold main_tick
    rw [hin]
  refine ⟨hm, ?_, ?_⟩
  · rw [hm]
    exact game_step_keeps_flag_set _ r rfl
  · rw [hm]
    exact game_step_dir _ r

theorem quit_tick_witness :
    main_tick sample_wall [81, 119] (const_rng 0) =
      ((game_step { sample_wall with game_over := 1 } (const_rng 0)).1, [119],
        (game_step { sample_wall with game_over := 1 } (const_rng 0)).2) ∧
    (main_tick sample_wall [81, 119] (const_rng 0)).1.game_over = 1 ∧
    (main_tick sample_wall [81, 119] (const_rng 0)).1.dir = sample_wall.dir :=
  quit_tick sample_wall 81 [119] (const_rng 0) (Or.inr rfl)

/-- C8, evaluation at the failing input: the Up-arrow sequence `ESC [ A`
(bytes 27, 91, 65) reaches a snake facing up. Delivered within one call it
leaves the direction up; delivered one byte per call, or as `ESC [` followed by
`A`, all bytes are consumed and the snake faces left, the command of the key
`A`. -/
theorem split_up_arrow_turns_left :
    sample_up.dir = DIR_UP ∧
    (input_calls sample_up [] [[27, 91, 65]]).1.dir = DIR_UP ∧
    input_calls sample_up [] [[27, 91, 65]] = (sample_up, []) ∧
    (input_calls sample_up [] [[27], [91], [65]]).1.dir = DIR_LEFT ∧
    (input_calls sample_up [] [[27], [91], [65]]).2 = [] ∧
    (input_calls sample_up [] [[27, 91], [65]]).1.dir = DIR_LEFT ∧
    (input_calls sample_up [] [[27, 91], [65]]).2 = [] ∧
    (input_calls sample_up [] [[27], [91, 65], []]).1.dir = DIR_LEFT ∧
    (input_calls sample_up [] [[27], [91, 65], []]).2 = [] := by
  refine ⟨rfl, by decide, rfl, ?_, ?_, ?_, ?_, ?_, ?_⟩ <;> decide

/-- C9: for every movement key (`w W s S a A d D`), `update_direction` leaves
the whole state unchanged when the direction of the key is the opposite of the
current `dir`, and otherwise sets `dir` to the direction of the key and changes
nothing else; `dir` after the call is never the opposite of `dir` before it. -/
theorem update_direction_rejects_reversal (g : GameState) (ch : Int) (d : Direction)
    (hk : key_direction ch = some d) :
    (d = opposite g.dir → update_direction g ch = g) ∧
    (d ≠ opposite g.dir → update_direction g ch = { g with dir := d }) ∧
    (update_direction g ch).dir ≠ opposite g.dir := by
  unfold key_direction at hk
  unfold update_direction
  split_ifs at hk with h1 h2 h3 h4
  · simp only [Option.some.injEq] at hk
    subst hk
    rw [if_pos h1]
    cases hd : g.dir <;> simp [opposite, hd]
  · simp only [Option.some.injEq] at hk
    subst hk
    rw [if_neg h1, if_pos h2]
    cases hd : g.dir <;> simp [opposite, hd]
  · simp only [Option.some.injEq] at hk
    subst hk
    rw [if_neg h1, if_neg h2, if_pos h3]
    cases hd : g.dir <;> simp [opposite, hd]
  · simp only [Option.some.injEq] at hk
    subst hk
    rw [if_neg h1, if_neg h2, if_neg h3, if_pos h4]
    cases hd : g.dir <;> simp [opposite, hd]

theorem update_direction_rejects_reversal_witness :
    (DIR_LEFT = opposite sample_eat.dir → update_direction sample_eat 97 = sample_eat) ∧
    (DIR_LEFT ≠ opposite sample_eat.dir →
      update_direction sample_eat 97 = { sample_eat with dir := DIR_LEFT }) ∧
    (update_direction sample_eat 97).dir ≠ opposite sample_eat.dir :=
  update_direction_rejects_reversal sample_eat 97 DIR_LEFT (by decide)

/-! ## Initialisation -/

theorem food_candidate_on_board (r : Rng) (k : Nat) : ¬ off_board (food_candidate r k) := by
  unfold off_board food_candidate rand_int rand
  simp only [BOARD_WIDTH, BOARD_HEIGHT]
  have hx0 := Int.tmod_nonneg 40 (Int.ofNat_nonneg (r.seq (r.pos + 2 * k)))
  have hx1 := Int.tmod_lt_of_pos (r.seq (r.pos + 2 * k) : Int) (show (0 : Int) < 40 by decide)
  have hy0 := Int.tmod_nonneg 20 (Int.ofNat_nonneg (r.seq (r.pos + 2 * k + 1)))
  have hy1 := Int.tmod_lt_of_pos (r.seq (r.pos + 2 * k + 1) : Int)
    (show (0 : Int) < 20 by decide)
  norm_num
  omega

theorem on_snake_init_fields (g : GameState) (p : Point) :
    on_snake (init_fields g) p ↔
      (p = { x := 12, y := 10 } ∨ p = { x := 11, y := 10 } ∨ p = { x := 10, y := 10 }) := by
  have h0 : (init_fields g).snake 0 = { x := 12, y := 10 } := rfl
  have h1 : (init_fields g).snake 1 = { x := 11, y := 10 } := rfl
  have h2 : (init_fields g).snake 2 = { x := 10, y := 10 } := rfl
  unfold on_snake
  constructor
  · intro h
    by_contra hn
    push_neg at hn
    apply h
    intro i hi0 hi3
    have hi3 : i < 3 := hi3
    interval_cases i
    · rw [h0]; exact fun e => hn.1 e.symm
    · rw [h1]; exact fun e => hn.2.1 e.symm
    · rw [h2]; exact fun e => hn.2.2 e.symm
  · intro h hall
    rcases h with h | h | h
    · exact hall 0 (by decide) (show (0 : Int) < 3 by decide) (by rw [h0, h])
    · exact hall 1 (by decide) (show (1 : Int) < 3 by decide) (by rw [h1, h])
    · exact hall 2 (by decide) (show (2 : Int) < 3 by decide) (by rw [h2, h])

/-- C10: whenever `init_game` returns, `snake_len = 3`, the snake is
`[(12,10),(11,10),(10,10)]`, `dir` is right, `score = 0`, `game_over = 0` and the
food is a cell of the board `[1..40] x [1..20]` other than the three snake
cells; and it does return, within `k + 1` rounds of its loop, as soon as the
`k`-th cell drawn from the random stream is none of the three snake cells. -/
theorem init_game_valid (g : GameState) (r : Rng) :
    (∀ (fuel : Nat) (g2 : GameState) (r2 : Rng), init_game fuel g r = some (g2, r2) →
      g2.snake_len = 3 ∧
      g2.snake 0 = { x := 12, y := 10 } ∧
      g2.snake 1 = { x := 11, y := 10 } ∧
      g2.snake 2 = { x := 10, y := 10 } ∧
      g2.dir = DIR_RIGHT ∧ g2.score = 0 ∧ g2.game_over = 0 ∧
      (1 ≤ g2.food.x ∧ g2.food.x ≤ 40 ∧ 1 ≤ g2.food.y ∧ g2.food.y ≤ 20) ∧
      g2.food ≠ g2.snake 0 ∧ g2.food ≠ g2.snake 1 ∧ g2.food ≠ g2.snake 2) ∧
    (∀ (k fuel : Nat), k < fuel →
      food_candidate r k ≠ { x := 12, y := 10 } →
      food_candidate r k ≠ { x := 11, y := 10 } →
      food_candidate r k ≠ { x := 10, y := 10 } →
      (init_game fuel g r).isSome = true) := by
  constructor
  · intro fuel g2 r2 h
    unfold init_game at h
    split at h
    · exact absurd h (by simp)
    · rename_i res hres
      simp only [Option.some.injEq, Prod.mk.injEq] at h
      obtain ⟨hoff, k, _, hp⟩ := init_food_loop_some _ fuel r res.1 res.2 hres
      rw [on_snake_init_fields] at hoff
      push_neg at hoff
      have hb := food_candidate_on_board r k
      rw [← hp] at hb
      unfold off_board at hb
      rw [← h.1]
      refine ⟨rfl, rfl, rfl, rfl, rfl, rfl, rfl, ?_, ?_, ?_, ?_⟩
      · show 1 ≤ res.1.x ∧ res.1.x ≤ 40 ∧ 1 ≤ res.1.y ∧ res.1.y ≤ 20
        omega
      · exact hoff.1
      · exact hoff.2.1
      · exact hoff.2.2
  · intro k fuel hk h0 h1 h2
    have hoff : ¬ on_snake (init_fields g) (food_candidate r k) := by
      rw [on_snake_init_fields]
      push_neg
      exact ⟨h0, h1, h2⟩
    have hs := init_food_loop_returns (init_fields g) fuel r k hk hoff
    unfold init_game
    split
    · rename_i hnone
      rw [hnone] at hs
      exact absurd hs (by simp)
    · rfl

theorem init_game_valid_witness :
    (∃ (g2 : GameState) (r2 : Rng), init_game 1 sample_wall (const_rng 0) = some (g2, r2) ∧
      g2.snake_len = 3 ∧
      g2.snake 0 = { x := 12, y := 10 } ∧
      g2.snake 1 = { x := 11, y := 10 } ∧
      g2.snake 2 = { x := 10, y := 10 } ∧
      g2.dir = DIR_RIGHT ∧ g2.score = 0 ∧ g2.game_over = 0 ∧
      (1 ≤ g2.food.x ∧ g2.food.x ≤ 40 ∧ 1 ≤ g2.food.y ∧ g2.food.y ≤ 20) ∧
      g2.food ≠ g2.snake 0 ∧ g2.food ≠ g2.snake 1 ∧ g2.food ≠ g2.snake 2) ∧
    (init_game 1 sample_wall (const_rng 0)).isSome = true :=
  ⟨⟨_, _, rfl, (init_game_valid sample_wall (const_rng 0)).1 1 _ _ rfl⟩,
    (init_game_valid sample_wall (const_rng 0)).2 0 1 (by decide) (by decide) (by decide)
      (by decide)⟩

/-! ## Board bounds and array bounds -/

theorem candidate_on_board (g : GameState) (h : ¬ collides g) : ¬ off_board (candidate g) :=
  fun hb => h (Or.inl hb)

theorem moved_snake_on_board (g : GameState) (hb : segments_on_board g) (hc : ¬ collides g)
    (i : Int) (h0 : 0 ≤ i) (hlt : i < g.snake_len) : ¬ off_board (moved_snake g i) := by
  by_cases hi : i = 0
  · subst hi
    rw [moved_snake_zero]
    exact candidate_on_board g hc
  · rw [moved_snake_body g i (by omega) hlt]
    exact hb (i - 1) (by omega) (by omega)

/-- C11: every snake point stays on the board. For every game state whose
`snake_len` segments (at least one: `snake_len >= 1`, as in every state of the
game, which starts with 3 segments and never shrinks) all lie in
`[1..40] x [1..20]`, all `snake_len` segments of the state after `game_step` lie
in `[1..40] x [1..20]`, whether the step terminates, moves, or eats and
grows. -/
theorem game_step_on_board (g : GameState) (r : Rng) (h1 : 1 ≤ g.snake_len)
    (hb : segments_on_board g) : segments_on_board (game_step g r).1 := by
  by_cases hc : collides g
  · rw [game_step_of_collides g r hc]
    exact hb
  · rw [game_step_of_not_collides g r hc]
    by_cases he : candidate g = g.food
    · rw [if_pos he, place_food_fst]
      unfold after_grow
      by_cases hcap : g.snake_len < 800
      · rw [if_pos hcap]
        intro i hi0 hin
        have hin : i < g.snake_len + 1 := hin
        show ¬ off_board (set_at (moved_snake g) g.snake_len (moved_snake g (g.snake_len - 1)) i)
        by_cases hi : i = g.snake_len
        · simp only [set_at, hi, if_true]
          exact moved_snake_on_board g hb hc _ (by omega) (by omega)
        · simp only [set_at, hi, if_false]
          exact moved_snake_on_board g hb hc i hi0 (by omega)
      · rw [if_neg hcap]
        intro i hi0 hin
        exact moved_snake_on_board g hb hc i hi0 hin
    · rw [if_neg he]
      intro i hi0 hin
      exact moved_snake_on_board g hb hc i hi0 hin

theorem game_step_on_board_witness : segments_on_board (game_step sample_eat (const_rng 0)).1 :=
  game_step_on_board sample_eat (const_rng 0) (by decide) (by decide)

theorem mem_shift_writes (n : Nat) (k i : Int) :
    i ∈ shift_writes n k ↔ k - n < i ∧ i ≤ k := by
  induction n generalizing k with
  | zero =>
    simp only [shift_writes, List.not_mem_nil, Nat.cast_zero, sub_zero, false_iff]
    omega
  | succ n ih =>
    simp only [shift_writes, List.mem_cons, ih]
    push_cast
    omega

theorem game_step_writes_of_collides (g : GameState) (h : collides g) :
    game_step_writes g = [] := by
  unfold game_step_writes
  rw [new_head_eq_candidate]
  simp only [BOARD_WIDTH, BOARD_HEIGHT, gt_iff_lt]
  by_cases hb : off_board (candidate g)
  · have hb2 := hb
    unfold off_board at hb2
    rw [if_pos hb2]
  · have hs : on_snake g (candidate g) := h.resolve_left hb
    unfold off_board at hb
    rw [if_neg hb, if_pos ((snake_contains_ne_zero_iff g (candidate g)).2 hs)]

theorem mem_game_step_writes (g : GameState) (h : ¬ collides g) (i : Int) :
    i ∈ game_step_writes g ↔
      ((1 ≤ i ∧ i < g.snake_len) ∨ i = 0 ∨
        (candidate g = g.food ∧ g.snake_len < 800 ∧ i = g.snake_len)) := by
  have h2 := h
  unfold collides at h2
  push_neg at h2
  have hb := h2.1
  unfold off_board at hb
  unfold game_step_writes
  rw [new_head_eq_candidate]
  simp only [BOARD_WIDTH, BOARD_HEIGHT, MAX_SNAKE_LENGTH, gt_iff_lt]
  rw [if_neg hb, if_neg (fun hc => h2.2 ((snake_contains_ne_zero_iff g (candidate g)).1 hc))]
  have hfood : ((candidate g).x = g.food.x ∧ (candidate g).y = g.food.y) ↔
      candidate g = g.food := by
    cases hc : candidate g
    cases hf : g.food
    simp
  simp only [hfood, List.mem_append, mem_shift_writes, List.mem_singleton]
  by_cases he : candidate g = g.food
  · by_cases hcap : g.snake_len < 40 * 20
    · have hcap2 : g.snake_len < 800 := by omega
      simp only [he, hcap, hcap2, if_true, List.mem_singleton, true_and]
      omega
    · have hcap2 : ¬ g.snake_len < 800 := by omega
      simp only [he, hcap, hcap2, if_true, if_false, List.not_mem_nil, true_and, false_and,
        or_false]
      omega
  · simp only [he, if_false, List.not_mem_nil, false_and, or_false]
    omega

/-- The cells that `game_step` does not assign keep their content. -/
theorem game_step_snake_frame (g : GameState) (r : Rng) (j : Int)
    (hj : j ∉ game_step_writes g) : (game_step g r).1.snake j = g.snake j := by
  by_cases hc : collides g
  · rw [game_step_of_collides g r hc]
  · rw [mem_game_step_writes g hc] at hj
    push_neg at hj
    obtain ⟨hbody, h0, hgrow⟩ := hj
    have hmoved : moved_snake g j = g.snake j := by
      have hb : ¬ (1 ≤ j ∧ j < g.snake_len) := fun hx => absurd hx.2 (not_lt.2 (hbody hx.1))
      simp [moved_snake, set_at, h0, hb]
    rw [game_step_of_not_collides g r hc]
    by_cases he : candidate g = g.food
    · rw [if_pos he, place_food_fst]
      unfold after_grow
      by_cases hcap : g.snake_len < 800
      · rw [if_pos hcap]
        have hne : j ≠ g.snake_len := hgrow he hcap
        show set_at (moved_snake g) g.snake_len (moved_snake g (g.snake_len - 1)) j = g.snake j
        simp only [set_at, hne, if_false]
        exact hmoved
      · rw [if_neg hcap]
        exact hmoved
    · rw [if_neg he]
      exact hmoved

theorem game_step_snake_len_cases (g : GameState) (r : Rng) :
    ((game_step g r).1.snake_len = g.snake_len ∧ ¬ grows g) ∨
    ((game_step g r).1.snake_len = g.snake_len + 1 ∧ grows g) := by
  by_cases hc : collides g
  · rw [game_step_of_collides g r hc]
    exact Or.inl ⟨rfl, fun hg => hg.1.1 hc⟩
  · rw [game_step_of_not_collides g r hc]
    by_cases he : candidate g = g.food
    · rw [if_pos he, place_food_fst]
      unfold after_grow
      by_cases hcap : g.snake_len < 800
      · rw [if_pos hcap]
        exact Or.inr ⟨rfl, ⟨hc, he⟩, hcap⟩
      · rw [if_neg hcap]
        exact Or.inl ⟨rfl, fun hg => hcap hg.2⟩
    · rw [if_neg he]
      exact Or.inl ⟨rfl, fun hg => he hg.1.2⟩

/-- C12: for `3 <= snake_len <= 800`, after `game_step` the new `snake_len` is
the old one or the old one plus 1 (it never shrinks) and is still at most 800;
every index of the array `snake` that the step assigns to lies in `0 .. 799`,
and the cells it does not assign keep their content. -/
theorem game_step_within_capacity (g : GameState) (r : Rng)
    (h3 : 3 ≤ g.snake_len) (h800 : g.snake_len ≤ 800) :
    ((game_step g r).1.snake_len = g.snake_len ∨
      (game_step g r).1.snake_len = g.snake_len + 1) ∧
    (game_step g r).1.snake_len ≤ 800 ∧
    (∀ i : Int, i ∈ game_step_writes g → 0 ≤ i ∧ i < 800) ∧
    (∀ j : Int, j ∉ game_step_writes g → (game_step g r).1.snake j = g.snake j) := by
  refine ⟨?_, ?_, ?_, fun j hj => game_step_snake_frame g r j hj⟩
  · rcases game_step_snake_len_cases g r with h | h
    · exact Or.inl h.1
    · exact Or.inr h.1
  · rcases game_step_snake_len_cases g r with h | h
    · rw [h.1]
      exact h800
    · rw [h.1]
      have := h.2.2
      omega
  · intro i hi
    by_cases hc : collides g
    · rw [game_step_writes_of_collides g hc] at hi
      exact absurd hi (List.not_mem_nil i)
    · rw [mem_game_step_writes g hc] at hi
      omega

theorem game_step_within_capacity_witness :
    ((game_step sample_full (const_rng 0)).1.snake_len = 800 ∨
      (game_step sample_full (const_rng 0)).1.snake_len = 800 + 1) ∧
    (game_step sample_full (const_rng 0)).1.snake_len ≤ 800 ∧
    (∀ i : Int, i ∈ game_step_writes sample_full → 0 ≤ i ∧ i < 800) ∧
    (∀ j : Int, j ∉ game_step_writes sample_full →
      (game_step sample_full (const_rng 0)).1.snake j = sample_full.snake j) :=
  game_step_within_capacity sample_full (const_rng 0) (by decide) (by decide)

/-! ## Food placement within the attempt cap -/

/-- C14: `place_food` draws `n` candidate cells with `1 <= n <= 10001` (two
calls of `rand()` each, so it always returns), changes no field other than
`food`, leaves `food` inside the board `[1..40] x [1..20]`, and whenever it stops
before exhausting the cap (`n < 10001`) the chosen cell is on no snake
segment. -/
theorem place_food_within_cap (g : GameState) (r : Rng) :
    ∃ n : Nat, 1 ≤ n ∧ n ≤ 10001 ∧
      (place_food g r).2 = { r with pos := r.pos + 2 * n } ∧
      (place_food g r).1 = { g with food := food_candidate r (n - 1) } ∧
      (1 ≤ (place_food g r).1.food.x ∧ (place_food g r).1.food.x ≤ 40 ∧
        1 ≤ (place_food g r).1.food.y ∧ (place_food g r).1.food.y ≤ 20) ∧
      (n < 10001 → ∀ i : Int, 0 ≤ i → i < g.snake_len → g.snake i ≠ (place_food g r).1.food) := by
  obtain ⟨k, hk, heq, _, hoff⟩ := place_food_loop_spec g 10000 r
  have hst : (place_food g r).1 = { g with food := food_candidate r k } := by
    rw [place_food_fst, heq]
  have hfood : (place_food g r).1.food = food_candidate r k := by rw [hst]
  refine ⟨k + 1, by omega, by omega, ?_, ?_, ?_, ?_⟩
  · show (place_food_loop g 10000 r).2 = _
    rw [heq]
  · rw [hst]
    rfl
  · rw [hfood]
    have hb := food_candidate_on_board r k
    unfold off_board at hb
    omega
  · intro hlt
    rw [hfood]
    have hno := hoff (by omega)
    unfold on_snake at hno
    rw [not_not] at hno
    exact hno

theorem place_food_within_cap_witness :
    ∀ i : Int, 0 ≤ i → i < sample_eat.snake_len →
      sample_eat.snake i ≠ (place_food sample_eat (const_rng 0)).1.food := by
  obtain ⟨n, _, _, hpos, _, _, hoff⟩ := place_food_within_cap sample_eat (const_rng 0)
  have h2 : (place_food sample_eat (const_rng 0)).2.pos = 2 := by decide
  rw [hpos] at h2
  have h3 : (const_rng 0).pos + 2 * n = 2 := h2
  have h4 : (const_rng 0).pos = 0 := rfl
  exact hoff (by omega)

/-! ## Keys -/

/-- C15: for every key code that is none of `w W a A s S d D q Q` (the value
`-1` of a failed read included), `update_direction` returns the state unchanged
in every field; and `getch_posix` yields `-1` when nothing can be read. -/
theorem update_direction_ignores_other_keys (g : GameState) (ch : Int)
    (h : ch ≠ 119 ∧ ch ≠ 87 ∧ ch ≠ 97 ∧ ch ≠ 65 ∧ ch ≠ 115 ∧ ch ≠ 83 ∧ ch ≠ 100 ∧ ch ≠ 68 ∧
      ch ≠ 113 ∧ ch ≠ 81) :
    update_direction g ch = g ∧ update_direction g (-1) = g ∧ (getch_posix []).1 = -1 := by
  obtain ⟨h1, h2, h3, h4, h5, h6, h7, h8, h9, h10⟩ := h
  refine ⟨?_, rfl, rfl⟩
  unfold update_direction
  simp [h1, h2, h3, h4, h5, h6, h7, h8, h9, h10]

theorem update_direction_ignores_other_keys_witness :
    update_direction sample_eat 91 = sample_eat ∧ update_direction sample_eat (-1) = sample_eat ∧
      (getch_posix []).1 = -1 :=
  update_direction_ignores_other_keys sample_eat 91 (by decide)

/-- C16: when the three bytes `ESC` (27), `[` (91), `X` are all pending in one
call of the POSIX `handle_input`, exactly those three bytes are consumed and
the resulting state is `update_direction` applied with `w` for `X = A`, `s` for
`X = B`, `d` for `X = C`, `a` for `X = D`, and the input state for any other
`X`. -/
theorem handle_input_complete_arrow (g : GameState) (X : Nat) (later : List Nat) :
    handle_input g (27 :: 91 :: X :: later) =
      (1,
        if X = 65 then update_direction g 119
        else if X = 66 then update_direction g 115
        else if X = 67 then update_direction g 100
        else if X = 68 then update_direction g 97
        else g,
        later) := by
  unfold handle_input
  simp only [kbhit_posix, getch_posix, List.isEmpty_cons, Bool.not_false, Bool.false_eq_true,
    if_false, Nat.cast_ofNat, if_true, ne_eq, not_true_eq_false]
  by_cases h65 : X = 65
  · subst h65
    simp
  · by_cases h66 : X = 66
    · subst h66
      simp
    · by_cases h67 : X = 67
      · subst h67
        simp
      · by_cases h68 : X = 68
        · subst h68
          simp
        · have c65 : ¬ ((X : Int) = 65) := by omega
          have c66 : ¬ ((X : Int) = 66) := by omega
          have c67 : ¬ ((X : Int) = 67) := by omega
          have c68 : ¬ ((X : Int) = 68) := by omega
          simp [h65, h66, h67, h68, c65, c66, c67, c68]

/-! ## The distinctness invariant kept by the step -/

theorem moved_snake_distinct_of_weak (g : GameState)
    (hd : distinct_upto g.snake (g.snake_len - 1)) (hc : ¬ collides g) :
    distinct_upto (moved_snake g) g.snake_len := by
  intro i hi0 hin j hij hjn
  rw [moved_snake_body g j (by omega) hjn]
  by_cases hi : i = 0
  · subst hi
    rw [moved_snake_zero]
    exact fun e => segment_ne_candidate g hc (j - 1) (by omega) (by omega) e.symm
  · rw [moved_snake_body g i (by omega) hin]
    exact hd (i - 1) (by omega) (by omega) (j - 1) (by omega) (by omega)

theorem weak_of_distinct (snake : Int → Point) (n : Int) (g : GameState)
    (hs : g.snake = snake) (hn : g.snake_len = n) (hd : distinct_upto snake n) :
    weak_distinct g := by
  unfold weak_distinct
  rw [hs, hn]
  refine ⟨fun i hi0 hin j hij hjn => hd i hi0 (by omega) j hij (by omega), Or.inr ?_⟩
  intro i hi0 hin
  exact hd i hi0 (by omega) (n - 1) hin (by omega)

theorem init_fields_distinct (g : GameState) : distinct_upto (init_fields g).snake 3 := by
  have h0 : (init_fields g).snake 0 = { x := 12, y := 10 } := rfl
  have h1 : (init_fields g).snake 1 = { x := 11, y := 10 } := rfl
  have h2 : (init_fields g).snake 2 = { x := 10, y := 10 } := rfl
  intro i hi0 hin j hij hjn
  interval_cases i <;> interval_cases j
  · rw [h0, h1]; decide
  · rw [h0, h2]; decide
  · rw [h1, h2]; decide

/-- C18: the predicate "the first `snake_len - 1` segments are pairwise
distinct, and the last segment equals the second-to-last or differs from all
the others" holds after `init_game`, is preserved by `game_step` for every state
and random stream, and after a step without collision that does not eat, all
`snake_len` segments are pairwise distinct. -/
theorem weak_distinct_invariant (g : GameState) (r : Rng) :
    (∀ (fuel : Nat) (g2 : GameState) (r2 : Rng),
      init_game fuel g r = some (g2, r2) → weak_distinct g2) ∧
    (weak_distinct g → weak_distinct (game_step g r).1) ∧
    (weak_distinct g → ¬ collides g → candidate g ≠ g.food →
      segments_distinct (game_step g r).1) := by
  refine ⟨?_, ?_, ?_⟩
  · intro fuel g2 r2 h
    unfold init_game at h
    split at h
    · exact absurd h (by simp)
    · simp only [Option.some.injEq, Prod.mk.injEq] at h
      rw [← h.1]
      exact weak_of_distinct (init_fields g).snake 3 _ rfl rfl (init_fields_distinct g)
  · intro hw
    by_cases hc : collides g
    · rw [game_step_of_collides g r hc]
      exact hw
    · have hm := moved_snake_distinct_of_weak g hw.1 hc
      rw [game_step_of_not_collides g r hc]
      by_cases he : candidate g = g.food
      · rw [if_pos he, place_food_fst]
        unfold after_grow
        by_cases hcap : g.snake_len < 800
        · rw [if_pos hcap]
          unfold weak_distinct
          have e1 : g.snake_len + 1 - 1 = g.snake_len := by omega
          have e2 : g.snake_len + 1 - 2 = g.snake_len - 1 := by omega
          simp only [e1, e2]
          constructor
          · intro i hi0 hin j hij hjn
            have hi : i ≠ g.snake_len := by omega
            have hj : j ≠ g.snake_len := by omega
            have := hm i hi0 hin j hij hjn
            simpa [set_at, hi, hj] using this
          · left
            simp [set_at]
        · rw [if_neg hcap]
          exact weak_of_distinct (moved_snake g) g.snake_len _ rfl rfl hm
      · rw [if_neg he]
        exact weak_of_distinct (moved_snake g) g.snake_len _ rfl rfl hm
  · intro hw hc he
    rw [game_step_of_not_collides g r hc, if_neg he]
    exact moved_snake_distinct_of_weak g hw.1 hc

theorem weak_distinct_invariant_witness :
    (∃ (g2 : GameState) (r2 : Rng),
      init_game 1 sample_wall (const_rng 0) = some (g2, r2) ∧ weak_distinct g2) ∧
    weak_distinct (game_step sample_eat (const_rng 0)).1 ∧
    segments_distinct (game_step sample_up (const_rng 0)).1 :=
  ⟨⟨_, _, rfl, (weak_distinct_invariant sample_wall (const_rng 0)).1 1 _ _ rfl⟩,
    (weak_distinct_invariant sample_eat (const_rng 0)).2.1 (by decide),
    (weak_distinct_invariant sample_up (const_rng 0)).2.2 (by decide) (by decide) (by decide)⟩

/-! ## Direction and neck -/

theorem update_direction_frame (g : GameState) (ch : Int) :
    (update_direction g ch).snake = g.snake ∧
    (update_direction g ch).snake_len = g.snake_len ∧
    (update_direction g ch).food = g.food ∧
    (update_direction g ch).score = g.score := by
  unfold update_direction
  split_ifs <;> exact ⟨rfl, rfl, rfl, rfl⟩

theorem update_direction_dir_ne_opposite (g : GameState) (ch : Int) :
    (update_direction g ch).dir ≠ opposite g.dir := by
  unfold update_direction
  cases hd : g.dir <;> split_ifs <;> simp_all [opposite]

theorem update_direction_flag (g : GameState) (ch : Int) (h : g.game_over ≠ 0) :
    (update_direction g ch).game_over ≠ 0 := by
  unfold update_direction
  split_ifs <;> first | exact h | exact one_ne_zero

theorem update_direction_flag_zero (g : GameState) (ch : Int)
    (h : (update_direction g ch).game_over = 0) : g.game_over = 0 := by
  by_contra hn
  exact update_direction_flag g ch hn h

/-- A call of `handle_input` applies `update_direction` at most once. -/
theorem ite_ind {α : Type} (P : α → Prop) (c : Prop) [Decidable c] (a b : α)
    (ha : P a) (hb : P b) : P (if c then a else b) := by
  split_ifs <;> assumption

theorem handle_input_state (g : GameState) (q : List Nat) :
    (handle_input g q).2.1 = g ∨ ∃ ch : Int, (handle_input g q).2.1 = update_direction g ch := by
  have hg : ∀ (a : Int) (b : List Nat),
      (a, g, b).2.1 = g ∨ ∃ ch : Int, (a, g, b).2.1 = update_direction g ch :=
    fun _ _ => Or.inl rfl
  have hu : ∀ (a : Int) (k : Int) (b : List Nat),
      (a, update_direction g k, b).2.1 = g ∨
        ∃ ch : Int, (a, update_direction g k, b).2.1 = update_direction g ch :=
    fun _ k _ => Or.inr ⟨k, rfl⟩
  unfold handle_input
  dsimp only
  apply ite_ind (fun res : Int × GameState × List Nat =>
    res.2.1 = g ∨ ∃ ch : Int, res.2.1 = update_direction g ch)
  · exact hg _ _
  apply ite_ind (fun res : Int × GameState × List Nat =>
    res.2.1 = g ∨ ∃ ch : Int, res.2.1 = update_direction g ch)
  swap
  · exact hu _ _ _
  apply ite_ind (fun res : Int × GameState × List Nat =>
    res.2.1 = g ∨ ∃ ch : Int, res.2.1 = update_direction g ch)
  · exact hg _ _
  apply ite_ind (fun res : Int × GameState × List Nat =>
    res.2.1 = g ∨ ∃ ch : Int, res.2.1 = update_direction g ch)
  · exact hg _ _
  apply ite_ind (fun res : Int × GameState × List Nat =>
    res.2.1 = g ∨ ∃ ch : Int, res.2.1 = update_direction g ch)
  · exact hg _ _
  apply ite_ind (fun res : Int × GameState × List Nat =>
    res.2.1 = g ∨ ∃ ch : Int, res.2.1 = update_direction g ch)
  · exact hu _ _ _
  apply ite_ind (fun res : Int × GameState × List Nat =>
    res.2.1 = g ∨ ∃ ch : Int, res.2.1 = update_direction g ch)
  · exact hu _ _ _
  apply ite_ind (fun res : Int × GameState × List Nat =>
    res.2.1 = g ∨ ∃ ch : Int, res.2.1 = update_direction g ch)
  · exact hu _ _ _
  apply ite_ind (fun res : Int × GameState × List Nat =>
    res.2.1 = g ∨ ∃ ch : Int, res.2.1 = update_direction g ch)
  · exact hu _ _ _
  · exact hg _ _

theorem handle_input_frame (g : GameState) (q : List Nat) :
    (handle_input g q).2.1.snake = g.snake ∧
    (handle_input g q).2.1.snake_len = g.snake_len ∧
    (handle_input g q).2.1.dir ≠ opposite g.dir := by
  rcases handle_input_state g q with h | ⟨ch, h⟩
  · rw [h]
    refine ⟨rfl, rfl, ?_⟩
    cases g.dir <;> simp [opposite]
  · rw [h]
    exact ⟨(update_direction_frame g ch).1, (update_direction_frame g ch).2.1,
      update_direction_dir_ne_opposite g ch⟩

theorem game_step_flag_zero (g : GameState) (r : Rng) (h : (game_step g r).1.game_over = 0) :
    ¬ collides g ∧ g.game_over = 0 := by
  by_cases hc : collides g
  · rw [game_step_of_collides g r hc] at h
    exact absurd h one_ne_zero
  · rw [game_step_game_over_of_not_collides g r hc] at h
    exact ⟨hc, h⟩

/-- After a step without collision of a snake with at least two segments the
head minus the neck is the unit offset of `dir`. -/
theorem neck_ok_after_move (g : GameState) (r : Rng) (h2 : 2 ≤ g.snake_len)
    (hc : ¬ collides g) : neck_ok (game_step g r).1 := by
  unfold neck_ok
  rw [game_step_dir, game_step_snake_of_not_collides g r hc 0 (by omega),
    game_step_snake_of_not_collides g r hc 1 (by omega), moved_snake_zero,
    moved_snake_body g 1 (by omega) (by omega)]
  simp only [candidate, sub_self]
  omega

theorem init_game_neck (fuel : Nat) (g : GameState) (r : Rng) (g2 : GameState) (r2 : Rng)
    (h : init_game fuel g r = some (g2, r2)) : neck_ok g2 ∧ g2.snake_len = 3 := by
  unfold init_game at h
  split at h
  · exact absurd h (by simp)
  · simp only [Option.some.injEq, Prod.mk.injEq] at h
    rw [← h.1]
    exact ⟨⟨rfl, rfl⟩, rfl⟩

theorem main_tick_fst (g : GameState) (q : List Nat) (r : Rng) :
    (main_tick g q r).1 = (game_step (handle_input g q).2.1 r).1 := rfl

/-- Every reachable state has at least three segments, and its direction agrees
with its neck as long as its flag is unset. -/
theorem reachable_inv (g : GameState) (h : Reachable g) :
    3 ≤ g.snake_len ∧ (g.game_over = 0 → neck_ok g) := by
  induction h with
  | init fuel g r g2 r2 hinit =>
    have := init_game_neck fuel g r g2 r2 hinit
    exact ⟨by rw [this.2], fun _ => this.1⟩
  | tick g q r _ _ ih =>
    have hlen : (handle_input g q).2.1.snake_len = g.snake_len := (handle_input_frame g q).2.1
    constructor
    · rw [main_tick_fst]
      rcases game_step_snake_len_cases (handle_input g q).2.1 r with hcase | hcase
      · rw [hcase.1, hlen]
        exact ih.1
      · rw [hcase.1, hlen]
        have := ih.1
        omega
    · intro h0
      rw [main_tick_fst] at h0 ⊢
      have hc := (game_step_flag_zero _ r h0).1
      exact neck_ok_after_move _ r (by rw [hlen]; have := ih.1; omega) hc

theorem candidate_ne_neck (g g1 : GameState) (hn : neck_ok g) (hs : g1.snake = g.snake)
    (hd : g1.dir ≠ opposite g.dir) : new_head g1 ≠ g1.snake 1 := by
  rw [new_head_eq_candidate]
  unfold neck_ok at hn
  intro he
  have hx : (candidate g1).x = (g1.snake 1).x := by rw [he]
  have hy : (candidate g1).y = (g1.snake 1).y := by rw [he]
  unfold candidate at hx hy
  simp only [hs] at hx hy
  revert hd hn hx hy
  cases g.dir <;> cases g1.dir <;> simp [unit_offset, opposite] <;> omega

/-- C19: in the loop of `main` (`handle_input`, which applies `update_direction`
at most once, then `game_step`) the predicate `snake[0] - snake[1] = unit offset
of dir` holds in the state `init_game` returns and in the state after every
iteration whose step does not collide (in particular whenever the flag is
still unset after it); and in every iteration from a reachable state the
candidate head computed by `game_step` differs from the neck `snake[1]`. -/
theorem neck_invariant :
    (∀ (fuel : Nat) (g : GameState) (r : Rng) (g2 : GameState) (r2 : Rng),
      init_game fuel g r = some (g2, r2) → neck_ok g2) ∧
    (∀ (g : GameState) (q : List Nat) (r : Rng), Reachable g → g.game_over = 0 →
      (¬ collides (handle_input g q).2.1 ∨ (main_tick g q r).1.game_over = 0) →
      neck_ok (main_tick g q r).1) ∧
    (∀ (g : GameState) (q : List Nat), Reachable g → g.game_over = 0 →
      new_head (handle_input g q).2.1 ≠ (handle_input g q).2.1.snake 1) := by
  refine ⟨fun fuel g r g2 r2 h => (init_game_neck fuel g r g2 r2 h).1, ?_, ?_⟩
  · intro g q r hr _ hcase
    have hlen : (handle_input g q).2.1.snake_len = g.snake_len := (handle_input_frame g q).2.1
    have h3 := (reachable_inv g hr).1
    have hc : ¬ collides (handle_input g q).2.1 := by
      rcases hcase with hc | h0
      · exact hc
      · rw [main_tick_fst] at h0
        exact (game_step_flag_zero _ r h0).1
    rw [main_tick_fst]
    exact neck_ok_after_move _ r (by rw [hlen]; omega) hc
  · intro g q hr h0
    have hn := (reachable_inv g hr).2 h0
    exact candidate_ne_neck g _ hn (handle_input_frame g q).1 (handle_input_frame g q).2.2

theorem neck_invariant_witness :
    (∃ (g2 : GameState) (r2 : Rng),
      init_game 1 sample_wall (const_rng 0) = some (g2, r2) ∧ neck_ok g2 ∧
      neck_ok (main_tick g2 [119] r2).1 ∧
      new_head (handle_input g2 [97]).2.1 ≠ (handle_input g2 [97]).2.1.snake 1) :=
  ⟨_, _, rfl, neck_invariant.1 1 sample_wall (const_rng 0) _ _ rfl,
    neck_invariant.2.1 _ [119] _ (Reachable.init 1 sample_wall (const_rng 0) _ _ rfl) rfl
      (Or.inl (by decide)),
    neck_invariant.2.2 _ [97] (Reachable.init 1 sample_wall (const_rng 0) _ _ rfl) rfl⟩

/-! ## The termination flag -/

theorem game_step_flag_ne_zero (g : GameState) (r : Rng) (h : g.game_over ≠ 0) :
    (game_step g r).1.game_over ≠ 0 := by
  by_cases hc : collides g
  · rw [game_step_of_collides g r hc]
    exact one_ne_zero
  · rw [game_step_game_over_of_not_collides g r hc]
    exact h

theorem handle_input_flag_ne_zero (g : GameState) (q : List Nat) (h : g.game_over ≠ 0) :
    (handle_input g q).2.1.game_over ≠ 0 := by
  rcases handle_input_state g q with hs | ⟨ch, hs⟩
  · rw [hs]
    exact h
  · rw [hs]
    exact update_direction_flag g ch h

theorem handle_input_quit_key (g : GameState) (key : Nat) (later : List Nat)
    (hk : key = 113 ∨ key = 81) :
    handle_input g (key :: later) = (1, { g with game_over := 1 }, later) := by
  rcases hk with hk | hk <;> subst hk <;> rfl

theorem main_loop_exit (g : GameState) (pending : List Nat) (r : Rng)
    (arrivals : List (List Nat)) (h : g.game_over ≠ 0) :
    main_loop g pending r arrivals = some g := by
  cases arrivals <;> simp [main_loop, h]

/-- C20: once `game_over` is set (non-zero) it is still set after
`update_direction` with any key, after `place_food`, after `game_step`, and so
after `handle_input` and after a whole iteration of the loop; and an iteration
in which the quit key `q` or `Q` is mapped ends the loop of `main`: the loop
exits with the state of that iteration, whatever input follows. -/
theorem game_over_sticky (g : GameState) (ch : Int) (r : Rng) (h : g.game_over ≠ 0) :
    (update_direction g ch).game_over ≠ 0 ∧
    (place_food g r).1.game_over ≠ 0 ∧
    (game_step g r).1.game_over ≠ 0 ∧
    (∀ q : List Nat, (handle_input g q).2.1.game_over ≠ 0) ∧
    (∀ q : List Nat, (main_tick g q r).1.game_over ≠ 0) ∧
    (∀ (g0 : GameState) (key : Nat) (later : List Nat) (arrivals : List (List Nat)),
      g0.game_over = 0 → (key = 113 ∨ key = 81) →
      main_loop g0 [] r ((key :: later) :: arrivals) = some (main_tick g0 (key :: later) r).1) := by
  refine ⟨update_direction_flag g ch h, h, game_step_flag_ne_zero g r h,
    fun q => handle_input_flag_ne_zero g q h, ?_, ?_⟩
  · intro q
    rw [main_tick_fst]
    exact game_step_flag_ne_zero _ r (handle_input_flag_ne_zero g q h)
  · intro g0 key later arrivals h0 hk
    have hset : (main_tick g0 (key :: later) r).1.game_over ≠ 0 := by
      rw [main_tick_fst, handle_input_quit_key g0 key later hk]
      exact game_step_flag_ne_zero _ r one_ne_zero
    have hstep : main_loop g0 [] r ((key :: later) :: arrivals) =
        main_loop (main_tick g0 (key :: later) r).1 (main_tick g0 (key :: later) r).2.1
          (main_tick g0 (key :: later) r).2.2 arrivals := by
      rw [main_loop]
      simp [h0]
    rw [hstep]
    exact main_loop_exit _ _ _ arrivals hset

theorem game_over_sticky_witness :
    (update_direction { sample_eat with game_over := 1 } 119).game_over ≠ 0 ∧
    (place_food { sample_eat with game_over := 1 } (const_rng 0)).1.game_over ≠ 0 ∧
    (game_step { sample_eat with game_over := 1 } (const_rng 0)).1.game_over ≠ 0 ∧
    (∀ q : List Nat, (handle_input { sample_eat with game_over := 1 } q).2.1.game_over ≠ 0) ∧
    (∀ q : List Nat,
      (main_tick { sample_eat with game_over := 1 } q (const_rng 0)).1.game_over ≠ 0) ∧
    main_loop sample_eat [] (const_rng 0) [[113], [119], []] =
      some (main_tick sample_eat [113] (const_rng 0)).1 :=
  ⟨(game_over_sticky { sample_eat with game_over := 1 } 119 (const_rng 0) (by decide)).1,
    (game_over_sticky { sample_eat with game_over := 1 } 119 (const_rng 0) (by decide)).2.1,
    (game_over_sticky { sample_eat with game_over := 1 } 119 (const_rng 0) (by decide)).2.2.1,
    (game_over_sticky { sample_eat with game_over := 1 } 119 (const_rng 0) (by decide)).2.2.2.1,
    (game_over_sticky { sample_eat with game_over := 1 } 119 (const_rng 0)
      (by decide)).2.2.2.2.1,
    (game_over_sticky { sample_eat with game_over := 1 } 119 (const_rng 0)
      (by decide)).2.2.2.2.2 sample_eat 113 [] [[119], []] rfl (Or.inl rfl)⟩

/-! ## Rendering -/

theorem render_cell_eq_spec (g : GameState) (x y : Int) :
    render_cell g x y = spec_cell g x y := by
  have hbody : snake_scan g.snake x y (g.snake_len - 1).toNat 1 = true ↔
      ¬ ∀ i : Int, 1 ≤ i → i < g.snake_len → g.snake i ≠ { x := x, y := y } := by
    rw [snake_scan_true_iff]
    push_neg
    constructor
    · rintro ⟨j, h1, h2, h3⟩
      exact ⟨j, h1, by omega, h3⟩
    · rintro ⟨j, h1, h2, h3⟩
      exact ⟨j, h1, by omega, h3⟩
  unfold render_cell spec_cell
  simp only [← point_eq_iff, hbody, CHAR_FOOD, CHAR_SNAKE_HEAD, CHAR_SNAKE_BODY, CHAR_EMPTY]

theorem render_cells_eq (g : GameState) (y : Int) (n : Nat) (x : Int) :
    render_cells g y n x = (List.range n).map (fun k : Nat => spec_cell g (x + (k : Int)) y) := by
  induction n generalizing x with
  | zero => rfl
  | succ n ih =>
    rw [render_cells, ih, List.range_succ_eq_map, render_cell_eq_spec]
    simp only [List.map_cons, List.map_map, Nat.cast_zero, add_zero, List.cons.injEq, true_and]
    apply List.map_congr_left
    intro k _
    simp only [Function.comp_apply, Nat.cast_succ]
    congr 1
    omega

theorem render_row_eq (g : GameState) (y : Int) :
    [CHAR_BORDER_VERTICAL] ++ render_cells g y BOARD_WIDTH.toNat 1 ++
      [CHAR_BORDER_VERTICAL, CHAR_NL] = spec_row g y := by
  rw [render_cells_eq]
  unfold spec_row
  have h40 : BOARD_WIDTH.toNat = 40 := rfl
  rw [h40]
  have hf : (fun k : Nat => spec_cell g (1 + (k : Int)) y) =
      (fun k : Nat => spec_cell g ((k : Int) + 1) y) := by
    funext k
    rw [add_comm]
  rw [hf]
  rfl

theorem render_rows_eq (g : GameState) (n : Nat) (y : Int) :
    render_rows g n y = ((List.range n).map (fun k : Nat => spec_row g (y + (k : Int)))).flatten := by
  induction n generalizing y with
  | zero => rfl
  | succ n ih =>
    rw [render_rows, render_row_eq, ih, List.range_succ_eq_map]
    simp only [List.map_cons, List.map_map, Nat.cast_zero, add_zero, List.flatten_cons]
    congr 2
    apply List.map_congr_left
    intro k _
    simp only [Function.comp_apply, Nat.cast_succ]
    congr 1
    omega

theorem render_border_eq : render_border = spec_border := rfl

theorem frame_head_eq (g : GameState) :
    frame_head g = [CHAR_ESC, '[', 'H'] ++ spec_border ++
      ((List.range 20).map (fun k : Nat => spec_row g ((k : Int) + 1))).flatten ++ spec_border := by
  unfold frame_head
  have h20 : BOARD_HEIGHT.toNat = 20 := rfl
  have hf : (fun k : Nat => spec_row g (1 + (k : Int))) =
      (fun k : Nat => spec_row g ((k : Int) + 1)) := by
    funext k
    rw [add_comm]
  rw [render_rows_eq, render_border_eq, h20, hf]

theorem spec_row_length (g : GameState) (y : Int) : (spec_row g y).length = 43 := by
  simp [spec_row]

theorem flatten_rows_length (g : GameState) (n : Nat) (f : Nat → Int) :
    (((List.range n).map (fun k : Nat => spec_row g (f k))).flatten).length = 43 * n := by
  induction n with
  | zero => rfl
  | succ n ih =>
    rw [List.range_succ, List.map_append, List.flatten_append, List.length_append, ih]
    simp [spec_row_length]
    omega

theorem frame_head_length (g : GameState) : (frame_head g).length = 949 := by
  rw [frame_head_eq]
  simp only [List.length_append, flatten_rows_length]
  rfl

theorem toDigitsCore_length (fuel n : Nat) (ds : List Char) (k : Nat) (hk : 1 ≤ k)
    (hn : n < 10 ^ k) : (Nat.toDigitsCore 10 fuel n ds).length ≤ k + ds.length := by
  induction fuel generalizing n ds k with
  | zero =>
    simp only [Nat.toDigitsCore]
    omega
  | succ fuel ih =>
    simp only [Nat.toDigitsCore]
    split_ifs with h0
    · simp only [List.length_cons]
      omega
    · have hk2 : 2 ≤ k := by
        by_contra hlt
        have hk1 : k = 1 := by omega
        rw [hk1] at hn
        apply h0
        exact Nat.div_eq_of_lt (by simpa using hn)
      have hdiv : n / 10 < 10 ^ (k - 1) := by
        apply Nat.div_lt_of_lt_mul
        have : 10 * 10 ^ (k - 1) = 10 ^ k := by
          rw [← pow_succ']
          congr 1
          omega
        omega
      have := ih (n / 10) (Nat.digitChar (n % 10) :: ds) (k - 1) (by omega) hdiv
      simp only [List.length_cons] at this
      omega

theorem fmt_d_length (n : Int) (h : is_int n) : (fmt_d n).length ≤ 11 := by
  unfold is_int at h
  unfold fmt_d Nat.toDigits
  split_ifs with hneg
  · have hb : (-n).toNat < 10 ^ 10 := by omega
    have := toDigitsCore_length ((-n).toNat + 1) (-n).toNat [] 10 (by omega) hb
    simp only [List.length_cons, List.length_nil] at this ⊢
    omega
  · have hb : n.toNat < 10 ^ 10 := by omega
    have := toDigitsCore_length (n.toNat + 1) n.toNat [] 10 (by omega) hb
    simp only [List.length_nil] at this
    omega

theorem info_text_length (g : GameState) :
    (info_text g).length = 67 + (fmt_d g.score).length + (fmt_d g.snake_len).length := by
  unfold info_text
  simp only [List.length_append, List.length_cons, List.length_nil]
  have h1 : ("Score: ").toList.length = 7 := by decide
  have h2 : ("Length: ").toList.length = 8 := by decide
  have h3 : ("Controls: W/A/S/D or Arrow keys. Press Q to quit.").toList.length = 49 := by
    decide
  rw [h1, h2, h3]
  omega

theorem render_bufsize_eq : render_bufsize = 1288 := by decide

theorem render_frame_fits (g : GameState) (hs : is_int g.score) (hl : is_int g.snake_len) :
    render_frame true g = Rendered.frame (frame_head g ++ info_text g) := by
  have h1 := fmt_d_length g.score hs
  have h2 := fmt_d_length g.snake_len hl
  have h3 := info_text_length g
  have h4 := frame_head_length g
  unfold render_frame
  simp only [Bool.not_true, Bool.false_eq_true, if_false, render_bufsize_eq]
  rw [if_pos]
  rw [h3, h4]
  push_cast
  omega

theorem toString_ofNat_toList (m : Nat) :
    (toString (Int.ofNat m)).toList = Nat.toDigits 10 m := rfl

theorem toString_negSucc_toList (m : Nat) :
    (toString (Int.negSucc m)).toList = '-' :: Nat.toDigits 10 (m + 1) := rfl

/-- The `%d` conversion yields the decimal numeral. -/
theorem fmt_d_eq_spec_decimal (n : Int) : fmt_d n = spec_decimal n := by
  unfold spec_decimal
  cases n with
  | ofNat m =>
    rw [toString_ofNat_toList]
    unfold fmt_d
    have h : ¬ (Int.ofNat m < 0) := by simp
    rw [if_neg h]
    rfl
  | negSucc m =>
    rw [toString_negSucc_toList]
    unfold fmt_d
    rw [if_pos (Int.negSucc_lt_zero m)]
    rfl

theorem info_text_eq_spec (g : GameState) : info_text g = spec_status g ++ spec_help := by
  unfold info_text spec_status spec_help
  rw [fmt_d_eq_spec_decimal, fmt_d_eq_spec_decimal]
  simp only [CHAR_TAB, CHAR_NL, List.append_assoc]

/-- C13: for every game state (with `score` and `snake_len` in the range of a
C `int`), the frame that `render_frame` builds is exactly the frame of the
specification: cursor home `ESC [ H`; the top border `+`, 40 times `-`, `+`,
newline; for each row `y = 1..20` the line `|`, 40 cell characters, `|`,
newline, the cell at `(x,y)` being `*` for the food, otherwise `O` for the head
`snake[0]`, otherwise `o` for a segment with index `1 .. snake_len - 1`,
otherwise a blank; the bottom border; then the status line `Score: `, score,
tab, `Length: `, `snake_len`, newline, and the help line
`Controls: W/A/S/D or Arrow keys. Press Q to quit.` with its newline. -/
theorem render_frame_exact (g : GameState) (hs : is_int g.score) (hl : is_int g.snake_len) :
    render_frame true g = Rendered.frame (spec_frame g) := by
  rw [render_frame_fits g hs hl, frame_head_eq, info_text_eq_spec]
  unfold spec_frame
  simp only [CHAR_ESC, List.append_assoc]

theorem render_frame_exact_witness :
    render_frame true sample_eat = Rendered.frame (spec_frame sample_eat) :=
  render_frame_exact sample_eat (by decide) (by decide)

/-- C17: for every game state with 32-bit `score` and `snake_len`, the buffer of
`render_frame` has `43 * 24 + 256 = 1288` bytes; the part before the info lines
takes `3 + 22 * 43` bytes, the formatted status and help text at most 89, so the
text and its terminating NUL end inside the buffer, `snprintf` does not
truncate, and the number of bytes written out is strictly below the buffer
size. -/
theorem render_frame_within_buffer (g : GameState) (hs : is_int g.score)
    (hl : is_int g.snake_len) :
    render_bufsize = 43 * 24 + 256 ∧
    (frame_head g).length = 3 + 22 * 43 ∧
    (info_text g).length ≤ 89 ∧
    ((frame_head g).length : Int) + (info_text g).length + 1 ≤ render_bufsize ∧
    ((info_text g).length : Int) < render_bufsize - (frame_head g).length ∧
    (∃ out : List Char, render_frame true g = Rendered.frame out ∧
      (out.length : Int) < render_bufsize) := by
  have h1 := fmt_d_length g.score hs
  have h2 := fmt_d_length g.snake_len hl
  have h3 := info_text_length g
  have h4 := frame_head_length g
  have h5 := render_bufsize_eq
  refine ⟨by rw [h5]; rfl, h4, by omega, by rw [h5]; omega, by rw [h5]; omega, ?_⟩
  refine ⟨frame_head g ++ info_text g, render_frame_fits g hs hl, ?_⟩
  rw [List.length_append, h5]
  push_cast
  omega

theorem render_frame_within_buffer_witness :
    render_bufsize = 43 * 24 + 256 ∧
    (frame_head sample_full).length = 3 + 22 * 43 ∧
    (info_text sample_full).length ≤ 89 ∧
    ((frame_head sample_full).length : Int) + (info_text sample_full).length + 1 ≤
      render_bufsize ∧
    ((info_text sample_full).length : Int) < render_bufsize - (frame_head sample_full).length ∧
    (∃ out : List Char, render_frame true sample_full = Rendered.frame out ∧
      (out.length : Int) < render_bufsize) :=
  render_frame_within_buffer sample_full (by decide) (by decide)

end Snake
